import Mathlib

/-!
# Verification of the RGR orchestrator against its specification

This file gives a shallow embedding, in Lean 4, of the parts of the
orchestrator repository needed to settle the frozen claims:

* `src/orchestrator/orchestrator.py` — the pipeline controller
  (`handle_qa_message`, `handle_dev_message`, `handle_refactor_message`,
  `assign_task_to_qa`, `get_current_task`), and the git helpers
  (`git_merge_branch`, `git_merge_into_default`, `create_task_branches`).
* `src/orchestrator/mailbox_watcher.py` — `MailboxWatcher`
  (`check_new_messages`, `clear_mailbox`).
* `src/orchestrator/llm_client.py` — `OllamaClient.decide`.

Modelling conventions:

* External effects (git subprocess calls, mailbox file writes, tmux
  signals, task-file persistence, console prints) are recorded as an
  explicit trace of `Action` values, in the order the Python code
  performs them.
* The behaviour of the external `git` binary is a parameter
  `GitEnv : String → List String → Bool × String` mapping a working
  directory and argument list to the `(success, output)` pair that
  `run_git_command` returns in the Python code.
* Python dictionaries holding JSON data are modelled by the inductive
  type `PyVal`; `json.loads` is modelled by an executable JSON parser
  `json_loads` covering the JSON subset relevant to the claims
  (objects, arrays, strings with basic escapes, integers, booleans,
  null).  Python exceptions escaping a function are modelled with
  `Except PyExc`.
* Task statuses are the literal strings the Python code uses
  ("pending", "in_progress", "completed", "stuck").
-/

namespace Orch

/-! ## Small string utilities (Python `in`, `str.split`, `re.sub`) -/

/-- First occurrence split: `splitOnce cs pat = some (before, after)`
when `pat` occurs in `cs` (as a contiguous sublist), splitting around
the leftmost occurrence; `none` when it does not occur.  `pat` is
assumed nonempty in all uses. -/
def splitOnce (cs : List Char) (pat : List Char) : Option (List Char × List Char) :=
  match cs with
  | [] => none
  | c :: rest =>
    if List.isPrefixOf pat (c :: rest) then
      some ([], (c :: rest).drop pat.length)
    else
      match splitOnce rest pat with
      | some (b, a) => some (c :: b, a)
      | none => none

/-- Python's `needle in haystack` substring test. -/
def strContains (hay pat : String) : Bool :=
  (splitOnce hay.data pat.data).isSome

def isPyWs (c : Char) : Bool := c = ' ' || c = '\n' || c = '\t' || c = '\r'

/-- Python's `str.strip()` (whitespace from both ends). -/
def pyStrip (s : String) : String :=
  String.mk (((s.data.dropWhile isPyWs).reverse.dropWhile isPyWs).reverse)

def pyLowerChar (c : Char) : Char :=
  if 'A' ≤ c && c ≤ 'Z' then Char.ofNat (c.toNat + 32) else c

/-- Python's `str.lower()` (ASCII range, which is all the code compares). -/
def pyLower (s : String) : String :=
  String.mk (s.data.map pyLowerChar)

def pySplitAux (pat : List Char) : Nat → List Char → List (List Char)
  | 0, cs => [cs]
  | fuel + 1, cs =>
    match splitOnce cs pat with
    | none => [cs]
    | some (b, a) => b :: pySplitAux pat fuel a

/-- Python's `str.split(sep)` with a nonempty separator. -/
def pySplit (s sep : String) : List String :=
  (pySplitAux sep.data (s.data.length + 1) s.data).map String.mk

/-- One step of Python's `re.sub(r"<think>.*?</think>", "", s, flags=DOTALL)`:
repeatedly drop the span from the leftmost `<think>` to the next
`</think>`.  An opening tag with no closing tag after it matches
nothing and is left in place (non-greedy regex semantics). -/
def dropThinkAux : Nat → List Char → List Char
  | 0, cs => cs
  | fuel + 1, cs =>
    match splitOnce cs "<think>".data with
    | none => cs
    | some (before, rest) =>
      match splitOnce rest "</think>".data with
      | none => cs
      | some (_, after) => before ++ dropThinkAux fuel after

/-- `re.sub(r"<think>.*?</think>", "", raw_text, flags=re.DOTALL)` from
`OllamaClient.decide`. -/
def stripThink (s : String) : String :=
  String.mk (dropThinkAux s.data.length s.data)

/-! ## Python JSON values and `json.loads` -/

/-- Python values produced by `json.loads`: the JSON subset used by the
orchestrator (no floats; a float literal is treated as a decode
failure, which only enlarges the failure case and is never hit by the
inputs considered here). -/
inductive PyVal where
  | null : PyVal
  | bool (b : Bool) : PyVal
  | num (n : Int) : PyVal
  | str (s : String) : PyVal
  | list (xs : List PyVal) : PyVal
  | dict (kvs : List (String × PyVal)) : PyVal
  deriving Repr

/-- Python `d.get(key, default)` on an association-list model of a dict. -/
def pyGetD (kvs : List (String × PyVal)) (k : String) (d : PyVal) : PyVal :=
  match kvs.find? (fun p => p.1 == k) with
  | some p => p.2
  | none => d

def jsonLBrace : Char := Char.ofNat 123
def jsonRBrace : Char := Char.ofNat 125

def skipWs : List Char → List Char
  | [] => []
  | c :: rest => if c = ' ' || c = '\n' || c = '\t' || c = '\r' then skipWs rest else c :: rest

/-- Collect a maximal run of digits, returning them and the remainder. -/
def takeDigits : List Char → List Char × List Char
  | [] => ([], [])
  | c :: rest =>
    if c.isDigit then
      let (ds, rem) := takeDigits rest
      (c :: ds, rem)
    else ([], c :: rest)

def digitsToNat (ds : List Char) : Nat :=
  ds.foldl (fun acc c => acc * 10 + (c.toNat - 48)) 0

/-- Parse a JSON string body after the opening quote, handling the
escapes `\"`, `\\`, `\n`, `\t`, `\r`, `\/`; returns the decoded
characters and the remainder after the closing quote. -/
def parseStrBody : Nat → List Char → Option (List Char × List Char)
  | 0, _ => none
  | _, [] => none
  | fuel + 1, c :: rest =>
    if c = '\"' then some ([], rest)
    else if c = '\\' then
      match rest with
      | [] => none
      | e :: rest2 =>
        let dec : Option Char :=
          if e = '\"' then some '\"'
          else if e = '\\' then some '\\'
          else if e = '/' then some '/'
          else if e = 'n' then some '\n'
          else if e = 't' then some '\t'
          else if e = 'r' then some '\r'
          else none
        match dec with
        | none => none
        | some d =>
          match parseStrBody fuel rest2 with
          | some (cs, rem) => some (d :: cs, rem)
          | none => none
    else
      match parseStrBody fuel rest with
      | some (cs, rem) => some (c :: cs, rem)
      | none => none

mutual

/-- Recursive-descent JSON value parser (fuel-indexed). -/
def parseVal : Nat → List Char → Option (PyVal × List Char)
  | 0, _ => none
  | fuel + 1, cs =>
    match skipWs cs with
    | [] => none
    | c :: rest =>
      if c = 'n' then
        if List.isPrefixOf "ull".data rest then some (.null, rest.drop 3) else none
      else if c = 't' then
        if List.isPrefixOf "rue".data rest then some (.bool true, rest.drop 3) else none
      else if c = 'f' then
        if List.isPrefixOf "alse".data rest then some (.bool false, rest.drop 4) else none
      else if c = '\"' then
        match parseStrBody (rest.length + 1) rest with
        | some (body, rem) => some (.str (String.mk body), rem)
        | none => none
      else if c = '-' then
        match takeDigits rest with
        | ([], _) => none
        | (ds, rem) =>
          match rem with
          | r :: _ => if r = '.' || r = 'e' || r = 'E' then none
                      else some (.num (-(digitsToNat ds : Int)), rem)
          | [] => some (.num (-(digitsToNat ds : Int)), rem)
      else if c.isDigit then
        match takeDigits (c :: rest) with
        | ([], _) => none
        | (ds, rem) =>
          match rem with
          | r :: _ => if r = '.' || r = 'e' || r = 'E' then none
                      else some (.num (digitsToNat ds : Int), rem)
          | [] => some (.num (digitsToNat ds : Int), rem)
      else if c = '[' then
        match skipWs rest with
        | ']' :: rem => some (.list [], rem)
        | _ =>
          match parseListItems fuel rest with
          | some (xs, rem) => some (.list xs, rem)
          | none => none
      else if c = jsonLBrace then
        match skipWs rest with
        | d :: rem => if d = jsonRBrace then some (.dict [], rem)
                      else match parseObjItems fuel rest with
                           | some (kvs, rem2) => some (.dict kvs, rem2)
                           | none => none
        | [] => none
      else none

/-- Parse one-or-more comma-separated JSON array items, then `]`. -/
def parseListItems : Nat → List Char → Option (List PyVal × List Char)
  | 0, _ => none
  | fuel + 1, cs =>
    match parseVal fuel cs with
    | none => none
    | some (v, rem) =>
      match skipWs rem with
      | ',' :: rem2 =>
        match parseListItems fuel rem2 with
        | some (xs, rem3) => some (v :: xs, rem3)
        | none => none
      | ']' :: rem2 => some ([v], rem2)
      | _ => none

/-- Parse one-or-more comma-separated JSON object entries, then the
closing brace. -/
def parseObjItems : Nat → List Char → Option (List (String × PyVal) × List Char)
  | 0, _ => none
  | fuel + 1, cs =>
    match skipWs cs with
    | c :: rest =>
      if c = '\"' then
        match parseStrBody (rest.length + 1) rest with
        | none => none
        | some (key, rem) =>
          match skipWs rem with
          | ':' :: rem2 =>
            match parseVal fuel rem2 with
            | none => none
            | some (v, rem3) =>
              match skipWs rem3 with
              | ',' :: rem4 =>
                match parseObjItems fuel rem4 with
                | some (kvs, rem5) => some ((String.mk key, v) :: kvs, rem5)
                | none => none
              | d :: rem4 =>
                if d = jsonRBrace then some ([(String.mk key, v)], rem4) else none
              | [] => none
          | _ => none
      else none
    | [] => none

end

/-- Model of Python's `json.loads`: parse a complete JSON document;
any trailing non-whitespace makes it a decode failure. -/
def json_loads (s : String) : Option PyVal :=
  match parseVal (s.data.length + 1) s.data with
  | some (v, rem) => if skipWs rem = [] then some v else none
  | none => none

/-! ## MailboxWatcher (`src/orchestrator/mailbox_watcher.py`) -/

/-- A parsed mailbox message.  The watcher never looks inside the
payload; in particular the `read` delivery flag is carried only to
state that the watcher ignores it. -/
structure Message where
  sender : String
  read : Bool
  payload : String
  deriving Repr, DecidableEq, Inhabited

/-- One `*.json` file in a mailbox directory: its filename stem and its
parsed content, `none` when the file is malformed
(`json.JSONDecodeError` / `IOError` in `check_new_messages`). -/
structure MsgFile where
  stem : String
  content : Option Message
  deriving Repr, DecidableEq, Inhabited

/-- The filesystem as seen by the watcher: each directory path maps to
the list of `*.json` files it currently holds. -/
def FS := String → List MsgFile

/-- The watcher's own state: the mailbox root and the `_processed` set
of filename stems already surfaced. -/
structure MailboxWatcher where
  mailbox_dir : String
  processed : List String
  deriving Repr

def MailboxWatcher.to_dev_dir (w : MailboxWatcher) : String := w.mailbox_dir ++ "/to_dev"
def MailboxWatcher.to_qa_dir (w : MailboxWatcher) : String := w.mailbox_dir ++ "/to_qa"
def MailboxWatcher.to_refactor_dir (w : MailboxWatcher) : String := w.mailbox_dir ++ "/to_refactor"

/-- A freshly constructed watcher (`MailboxWatcher.__init__`):
`_processed` starts empty. -/
def MailboxWatcher.init (mailbox_dir : String) : MailboxWatcher :=
  { mailbox_dir := mailbox_dir, processed := [] }

/-- `dir_map.get(recipient, self.to_dev_dir)`: the directory for a
recipient, falling back to the dev mailbox for any unknown name. -/
def MailboxWatcher.dirFor (w : MailboxWatcher) (recipient : String) : String :=
  if recipient == "dev" then w.to_dev_dir
  else if recipient == "qa" then w.to_qa_dir
  else if recipient == "refactor" then w.to_refactor_dir
  else w.to_dev_dir

/-- Insertion into a stem-sorted list (used to model Python's
`sorted(target_dir.glob("*.json"))`). -/
def insertByStem (f : MsgFile) : List MsgFile → List MsgFile
  | [] => [f]
  | g :: rest =>
    if f.stem ≤ g.stem then f :: g :: rest else g :: insertByStem f rest

def sortByStem (files : List MsgFile) : List MsgFile :=
  files.foldr insertByStem []

/-- The loop body of `check_new_messages`: walk the (sorted) files,
skipping stems already in `_processed`, returning each well-formed
not-yet-seen file and adding its stem to `_processed`; malformed files
are skipped without being marked processed. -/
def checkLoop (processed : List String) : List MsgFile → List MsgFile × List String
  | [] => ([], processed)
  | f :: rest =>
    if processed.contains f.stem then checkLoop processed rest
    else
      match f.content with
      | some _ =>
        let (ms, p) := checkLoop (f.stem :: processed) rest
        (f :: ms, p)
      | none => checkLoop processed rest

/-- `MailboxWatcher.check_new_messages(recipient)`.  Returns the newly
surfaced message files (each with the stem it was read from) and the
updated watcher. -/
def MailboxWatcher.check_new_messages (w : MailboxWatcher) (fs : FS) (recipient : String) :
    List MsgFile × MailboxWatcher :=
  let target_dir := w.dirFor recipient
  let (ms, p) := checkLoop w.processed (sortByStem (fs target_dir))
  (ms, { w with processed := p })

/-- `MailboxWatcher.clear_mailbox(recipient)`: unlink every `*.json`
file in the recipient's directory (with the same dev fallback). -/
def MailboxWatcher.clear_mailbox (w : MailboxWatcher) (fs : FS) (recipient : String) : FS :=
  let target_dir := w.dirFor recipient
  fun d => if d == target_dir then [] else fs d

/-- A lifetime of one watcher instance: a sequence of
`check_new_messages` calls, each against an arbitrary filesystem
snapshot (message files may be added, removed, rewritten, or have
their `read` flag flipped between calls). -/
def runWatcher (w : MailboxWatcher) : List (String × FS) → List (List MsgFile) × MailboxWatcher
  | [] => ([], w)
  | (recipient, fs) :: calls =>
    let (out, w1) := w.check_new_messages fs recipient
    let (outs, w2) := runWatcher w1 calls
    (out :: outs, w2)

/-! ## Decision Client (`src/orchestrator/llm_client.py`) -/

/-- The inference service's reply as seen through `requests`:
either the `requests.post` / `raise_for_status` call raised a
`requests.RequestException` (transport failure, timeout, HTTP error),
or a body string was obtained. -/
inductive HttpResult where
  | requestError (msg : String)
  | ok (status : Nat) (body : String)
  deriving Repr, DecidableEq

/-- Python exceptions that can escape `OllamaClient.decide`. -/
inductive PyExc where
  | attributeError (msg : String)
  | typeError (msg : String)
  | nameError (msg : String)
  deriving Repr, DecidableEq

/-- The fail-safe decision built in the `except json.JSONDecodeError`
handler of `decide`. -/
def failsafe_parse (emsg : String) : PyVal :=
  .dict [("action", .str "flag_human"),
         ("message", .str ("Orchestrator could not parse LLM response: " ++ emsg)),
         ("reasoning", .str "JSON parse failure")]

/-- The fail-safe decision built in the `except requests.RequestException`
handler of `decide`. -/
def failsafe_unreachable (emsg : String) : PyVal :=
  .dict [("action", .str "flag_human"),
         ("message", .str ("Orchestrator LLM is unreachable: " ++ emsg)),
         ("reasoning", .str "Ollama connection failure")]

/-- The code-fence stripping step of `decide`:
`raw_text.split("```json")[1].split("```")[0].strip()` when the text
contains a ```` ```json ```` fence, else the analogous plain-fence
split, else the text unchanged. -/
def stripFences (raw : String) : String :=
  if strContains raw "```json" then
    pyStrip ((pySplit ((pySplit raw "```json").getD 1 "") "```").getD 0 "")
  else if strContains raw "```" then
    pyStrip ((pySplit ((pySplit raw "```").getD 1 "") "```").getD 0 "")
  else raw

/-- `OllamaClient.decide(context)`.

`Except.ok d` models a normal return of the decision `d`;
`Except.error e` models a Python exception `e` escaping `decide`.
The try-block is translated step for step:

* a `requests.RequestException` from `requests.post` or
  `raise_for_status` is caught and yields the unreachable fail-safe;
* `response.json()` raising (non-JSON HTTP body) matches the
  `except json.JSONDecodeError` clause first, whose handler reads
  `raw_text` — a variable not yet bound at that point — so a
  `NameError` escapes;
* `result.get("response", "")` on a non-dict body raises
  `AttributeError` (uncaught);
* a non-string `"response"` field makes `re.sub` raise `TypeError`
  (uncaught);
* `json.loads(raw_text)` failing is caught and yields the parse
  fail-safe (with `raw_text` bound this time);
* `decision.get("action")` in the success-path log line raises
  `AttributeError` (uncaught) when the decoded value is not a dict. -/
def OllamaClient.decide (_disable_thinking : Bool) (_context : String)
    (http : HttpResult) : Except PyExc PyVal :=
  match http with
  | .requestError m => .ok (failsafe_unreachable m)
  | .ok status body =>
    if 400 ≤ status then .ok (failsafe_unreachable ("HTTP status " ++ toString status))
    else
      match json_loads body with
      | none => .error (.nameError "name raw_text is not defined")
      | some result =>
        match result with
        | .dict kvs =>
          match pyGetD kvs "response" (.str "") with
          | .str raw0 =>
            let raw_text := stripFences (pyStrip (stripThink raw0))
            match json_loads raw_text with
            | none => .ok (failsafe_parse "Expecting value")
            | some decision =>
              match decision with
              | .dict _ => .ok decision
              | _ => .error (.attributeError "object has no attribute get")
          | _ => .error (.typeError "expected string or bytes-like object")
        | _ => .error (.attributeError "object has no attribute get")

/-! ## Orchestrator data model (`src/orchestrator/orchestrator.py`) -/

/-- One entry of `tasks.json` as the orchestrator mutates it. -/
structure Task where
  id : String
  title : String
  description : String
  status : String
  attempts : Nat
  deriving Repr, DecidableEq, Inhabited

/-- The RGR pipeline state enum. -/
inductive RGRState where
  | IDLE
  | WAITING_QA_RED
  | WAITING_DEV_GREEN
  | WAITING_REFACTOR_BLUE
  | BLOCKED
  deriving Repr, DecidableEq, Inhabited

/-- The module-level mutable state the handlers read and write:
`tasks`, `rgr_state`, `current_task_id`. -/
structure OrchState where
  tasks : List Task
  rgr_state : RGRState
  current_task_id : Option String
  deriving Repr, DecidableEq, Inhabited

/-- The configuration values the modelled code paths consult.
Empty strings model unset/falsy config entries (Python truthiness of
`repo_dir` and the agents' `working_dir`). -/
structure Config where
  max_attempts_per_task : Nat
  repo_dir : String
  default_branch : String
  qa_working_dir : String
  dev_working_dir : String
  refactor_working_dir : String
  deriving Repr, DecidableEq, Inhabited

/-- Externally visible side effects, recorded in program order. -/
inductive Action where
  | gitCmd (cwd : String) (args : List String) (ok : Bool) (out : String)
  | writeMailbox (recipient : String) (msg_type : String)
  | tmuxNudge (agent : String)
  | tmuxClear (agent : String)
  | saveTasks
  | consolePrint (s : String)
  deriving Repr, DecidableEq, Inhabited

/-- The external `git` binary: working directory and argument list to
the `(success, output)` pair `run_git_command` returns. -/
def GitEnv := String → List String → Bool × String

/-- `run_git_command(cwd, *git_args)`: consult the git environment and
record the invocation (with its outcome) in the trace. -/
def run_git_command (git : GitEnv) (cwd : String) (args : List String) :
    (Bool × String) × Action :=
  let r := git cwd args
  (r, .gitCmd cwd args r.1 r.2)

/-- `get_current_task()`: the first task whose status is `pending` or
`in_progress`, with its index, or `none`. -/
def get_current_task : List Task → Option (Nat × Task)
  | [] => none
  | t :: rest =>
    if t.status == "pending" || t.status == "in_progress" then some (0, t)
    else (get_current_task rest).map (fun p => (p.1 + 1, p.2))

/-! ## Git helpers -/

/-- `git_merge_branch(worktree_path, source_branch)`: merge the source
branch into the worktree's current branch; when the failure output
reports a conflict, run `merge --abort` and return a
`MERGE CONFLICT:` failure. -/
def git_merge_branch (git : GitEnv) (worktree_path source_branch : String) :
    (Bool × String) × List Action :=
  let ((success, output), a1) :=
    run_git_command git worktree_path ["merge", source_branch, "--no-edit"]
  if !success then
    if strContains output "CONFLICT" || strContains (pyLower output) "conflict" then
      let (_, a2) := run_git_command git worktree_path ["merge", "--abort"]
      ((false, "MERGE CONFLICT: " ++ output), [a1, a2])
    else
      ((false, output), [a1])
  else
    ((true, output), [a1])

/-- `git_merge_into_default(repo_path, source_branch)`: stash any
uncommitted changes, checkout the default branch, merge; restore the
stash on every failure path, drop it only after a successful merge. -/
def git_merge_into_default (cfg : Config) (git : GitEnv) (repo_path source_branch : String) :
    (Bool × String) × List Action :=
  let ((_, status_output), aStatus) := run_git_command git repo_path ["status", "--porcelain"]
  let stashStep :=
    if pyStrip status_output ≠ "" then
      let ((s, stash_output), aPush) := run_git_command git repo_path
        ["stash", "push", "--include-untracked", "-m",
         "orchestrator-auto-stash-before-" ++ source_branch]
      (s && !(strContains stash_output "No local changes"), [aPush])
    else (false, ([] : List Action))
  let stashed := stashStep.1
  let stashActs := stashStep.2
  let ((cok, cout), aCo) := run_git_command git repo_path ["checkout", cfg.default_branch]
  if !cok then
    let popActs := if stashed then [(run_git_command git repo_path ["stash", "pop"]).2] else []
    ((false, "Failed to checkout " ++ cfg.default_branch ++ ": " ++ cout),
     aStatus :: stashActs ++ [aCo] ++ popActs)
  else
    let ((mok, mout), aM) := run_git_command git repo_path ["merge", source_branch, "--no-edit"]
    if !mok then
      if strContains mout "CONFLICT" || strContains (pyLower mout) "conflict" then
        let (_, aAb) := run_git_command git repo_path ["merge", "--abort"]
        let popActs := if stashed then [(run_git_command git repo_path ["stash", "pop"]).2] else []
        ((false, "MERGE CONFLICT: " ++ mout),
         aStatus :: stashActs ++ [aCo, aM, aAb] ++ popActs)
      else
        let popActs := if stashed then [(run_git_command git repo_path ["stash", "pop"]).2] else []
        ((false, mout), aStatus :: stashActs ++ [aCo, aM] ++ popActs)
    else
      let dropActs := if stashed then [(run_git_command git repo_path ["stash", "drop"]).2] else []
      ((true, mout), aStatus :: stashActs ++ [aCo, aM] ++ dropActs)

/-- The per-agent phase branch name (`red/`, `green/`, `blue/`). -/
def branchNameFor (agent task_id : String) : String :=
  if agent == "qa" then "red/" ++ task_id
  else if agent == "dev" then "green/" ++ task_id
  else "blue/" ++ task_id

/-- The agent's `working_dir` from merged config ("" when unset). -/
def workingDirFor (cfg : Config) (agent : String) : String :=
  if agent == "qa" then cfg.qa_working_dir
  else if agent == "dev" then cfg.dev_working_dir
  else if agent == "refactor" then cfg.refactor_working_dir
  else ""

/-- One iteration of the `create_task_branches` loop body for one
agent: checkout the default branch, delete a stale same-named branch
when `rev-parse` finds one, and cut the phase branch fresh. -/
def createBranchStep (cfg : Config) (git : GitEnv) (task_id : String)
    (acc : List Action) (agent : String) : List Action :=
  let wt_dir := workingDirFor cfg agent
  if wt_dir == "" then acc
  else
    let branch := branchNameFor agent task_id
    let (_, a1) := run_git_command git wt_dir ["checkout", cfg.default_branch]
    let ((stale, _), a2) := run_git_command git wt_dir ["rev-parse", "--verify", branch]
    let delActs := if stale then [(run_git_command git wt_dir ["branch", "-D", branch]).2] else []
    let (_, a3) := run_git_command git wt_dir ["checkout", "-b", branch]
    acc ++ [a1, a2] ++ delActs ++ [a3]

/-- `create_task_branches(task_id)`: run the loop body over the three
agents (no-op when `repo_dir` is unset). -/
def create_task_branches (cfg : Config) (git : GitEnv) (task_id : String) : List Action :=
  if cfg.repo_dir == "" then []
  else (["qa", "dev", "refactor"]).foldl (createBranchStep cfg git task_id) []

/-! ## Pipeline controller handlers -/

/-- `assign_task_to_qa(task)`.  Translated statement for statement:
first `current_task_id = task["id"]`, then the guard
`if current_task_id != task["id"]` deciding whether to `/clear` the
agents — the guard compares the just-assigned value against itself —
then branch creation, the mailbox write, the nudge, the status
mutation and the save. -/
def assign_task_to_qa (cfg : Config) (git : GitEnv) (st : OrchState)
    (i : Nat) (task : Task) : OrchState × List Action :=
  let current_task_id := task.id
  let clearActs :=
    if current_task_id != task.id then
      [Action.tmuxClear "qa", Action.tmuxClear "dev", Action.tmuxClear "refactor"]
    else []
  let branchActs := create_task_branches cfg git task.id
  let tasks1 := st.tasks.set i { task with status := "in_progress" }
  ({ tasks := tasks1,
     rgr_state := RGRState.WAITING_QA_RED,
     current_task_id := some current_task_id },
   clearActs ++ branchActs ++
     [Action.writeMailbox "qa" "task_assignment", Action.tmuxNudge "qa", Action.saveTasks])

/-- `handle_qa_message(message)`: merge `red/<task>` into the Dev
worktree; on merge failure flip to BLOCKED and stop; on success
forward a `test_request` to Dev and wait for GREEN. -/
def handle_qa_message (cfg : Config) (git : GitEnv) (st : OrchState) : OrchState × List Action :=
  match get_current_task st.tasks with
  | none => (st, [])
  | some (_, task) =>
    let task_id := st.current_task_id.getD task.id
    if cfg.repo_dir != "" && cfg.dev_working_dir != "" then
      let red_branch := "red/" ++ task_id
      let ((success, _), acts) := git_merge_branch git cfg.dev_working_dir red_branch
      if !success then
        ({ st with rgr_state := RGRState.BLOCKED }, acts)
      else
        ({ st with rgr_state := RGRState.WAITING_DEV_GREEN },
         acts ++ [Action.writeMailbox "dev" "test_request", Action.tmuxNudge "dev"])
    else
      ({ st with rgr_state := RGRState.WAITING_DEV_GREEN },
       [Action.writeMailbox "dev" "test_request", Action.tmuxNudge "dev"])

/-- `handle_dev_message(message)`: merge `green/<task>` into the
Refactor worktree; on merge failure flip to BLOCKED and stop; on
success forward a `refactor_request` and wait for BLUE. -/
def handle_dev_message (cfg : Config) (git : GitEnv) (st : OrchState) : OrchState × List Action :=
  match get_current_task st.tasks with
  | none => (st, [])
  | some (_, task) =>
    let task_id := st.current_task_id.getD task.id
    if cfg.repo_dir != "" && cfg.refactor_working_dir != "" then
      let green_branch := "green/" ++ task_id
      let ((success, _), acts) := git_merge_branch git cfg.refactor_working_dir green_branch
      if !success then
        ({ st with rgr_state := RGRState.BLOCKED }, acts)
      else
        ({ st with rgr_state := RGRState.WAITING_REFACTOR_BLUE },
         acts ++ [Action.writeMailbox "refactor" "refactor_request", Action.tmuxNudge "refactor"])
    else
      ({ st with rgr_state := RGRState.WAITING_REFACTOR_BLUE },
       [Action.writeMailbox "refactor" "refactor_request", Action.tmuxNudge "refactor"])

/-- The tail of the `status == "pass"` branch of
`handle_refactor_message` after a successful (or skipped) merge into
the default branch: mark the task completed, save, go IDLE, then
either assign the next pending task or broadcast `all_done` to every
agent. -/
def refactorPassComplete (cfg : Config) (git : GitEnv) (st1 : OrchState)
    (i : Nat) (task : Task) (mergeActs : List Action) : OrchState × List Action :=
  let task2 := { task with status := "completed" }
  let tasks2 := st1.tasks.set i task2
  let st2 := { st1 with tasks := tasks2, rgr_state := RGRState.IDLE }
  match get_current_task tasks2 with
  | some (j, next_task) =>
    let (st3, assignActs) := assign_task_to_qa cfg git st2 j next_task
    (st3, mergeActs ++ [Action.saveTasks] ++ assignActs)
  | none =>
    (st2, mergeActs ++ [Action.saveTasks] ++
      [Action.writeMailbox "qa" "all_done", Action.tmuxNudge "qa",
       Action.writeMailbox "dev" "all_done", Action.tmuxNudge "dev",
       Action.writeMailbox "refactor" "all_done", Action.tmuxNudge "refactor"])

/-- `handle_refactor_message(message)`.  `msgStatus` is
`content.get("status", "unknown")`; `llmDecision` is the dict returned
by `llm.decide` in the unknown-status branch (only consulted there).
The attempts counter is incremented before the verdict is examined,
exactly as in the source. -/
def handle_refactor_message (cfg : Config) (git : GitEnv)
    (llmDecision : List (String × PyVal)) (st : OrchState) (msgStatus : String) :
    OrchState × List Action :=
  match get_current_task st.tasks with
  | none => (st, [])
  | some (i, task0) =>
    let task := { task0 with attempts := task0.attempts + 1 }
    let tasks1 := st.tasks.set i task
    let st1 := { st with tasks := tasks1 }
    if msgStatus == "pass" then
      let task_id := st.current_task_id.getD task.id
      if cfg.repo_dir != "" then
        let blue_branch := "blue/" ++ task_id
        let ((success, _), mergeActs) := git_merge_into_default cfg git cfg.repo_dir blue_branch
        if !success then
          ({ st1 with rgr_state := RGRState.BLOCKED }, mergeActs)
        else
          refactorPassComplete cfg git st1 i task mergeActs
      else
        refactorPassComplete cfg git st1 i task []
    else if msgStatus == "fail" then
      if cfg.max_attempts_per_task ≤ task.attempts then
        let task2 := { task with status := "stuck" }
        ({ st1 with tasks := tasks1.set i task2, rgr_state := RGRState.IDLE },
         [Action.saveTasks, Action.consolePrint "HUMAN REVIEW NEEDED"])
      else
        ({ st1 with rgr_state := RGRState.WAITING_DEV_GREEN },
         [Action.writeMailbox "dev" "fix_required", Action.tmuxNudge "dev"])
    else
      let llmAction := pyGetD llmDecision "action" (.str "flag_human")
      match llmAction with
      | .str a =>
        if a == "flag_human" then
          let task2 := { task with status := "stuck" }
          ({ st1 with tasks := tasks1.set i task2, rgr_state := RGRState.IDLE },
           [Action.saveTasks, Action.consolePrint "HUMAN REVIEW NEEDED"])
        else (st1, [])
      | _ => (st1, [])

/-! ## Trace observations

Predicates over the recorded `Action` trace, used to state the claims:
which mailbox writes happened, whether the task file was saved,
whether a worktree was left mid-merge, and where uncommitted changes
ended up. -/

def Action.isGitCmd : Action → Bool
  | .gitCmd _ _ _ _ => true
  | _ => false

def Action.isWriteMailbox : Action → Bool
  | .writeMailbox _ _ => true
  | _ => false

def Action.isTmuxClear : Action → Bool
  | .tmuxClear _ => true
  | _ => false

def Action.isSaveTasks : Action → Bool
  | .saveTasks => true
  | _ => false

/-- Does the Python code classify this merge output as a conflict?
(`"CONFLICT" in output or "conflict" in output.lower()`). -/
def conflictOutput (out : String) : Bool :=
  strContains out "CONFLICT" || strContains (pyLower out) "conflict"

/-- Whether worktree `cwd` is inside an unresolved merge after one more
recorded git command: a conflicting `merge` enters the mid-merge
state, `merge --abort` or a successful merge leaves it.  The
orchestrator only ever issues two-element `["merge", "--abort"]` and
three-element `["merge", <src>, "--no-edit"]` invocations, which the
first two patterns distinguish by shape. -/
def mergeStep (cwd : String) (mid : Bool) (a : Action) : Bool :=
  match a with
  | .gitCmd c args ok out =>
    if c == cwd then
      match args with
      | ["merge", _] => false
      | "merge" :: _ =>
        if ok then false
        else if conflictOutput out then true
        else mid
      | _ => mid
    else mid
  | _ => mid

/-- Whether worktree `cwd` is left inside an unresolved merge by a
trace (starting from a clean worktree). -/
def midMergeAfter (cwd : String) (tr : List Action) : Bool :=
  tr.foldl (mergeStep cwd) false

/-- Whether the trace contains a successful `git merge <src> --no-edit`
in worktree `cwd` (i.e. the source branch actually got merged). -/
def mergedSource (cwd src : String) (tr : List Action) : Bool :=
  tr.any (fun a =>
    match a with
    | .gitCmd c ["merge", s, "--no-edit"] ok _ => c == cwd && s == src && ok
    | _ => false)

/-- Where the operator's uncommitted changes live. -/
inductive ChangesLoc where
  | inWorktree
  | inStash
  | dropped
  deriving Repr, DecidableEq

/-- Effect of one recorded git command on the location of the
uncommitted changes of repo `repo`: a successful `stash push` moves
them from the worktree to the stash, `stash pop` restores them,
`stash drop` discards them; no other command touches them. -/
def stashStep (repo : String) (loc : ChangesLoc) (a : Action) : ChangesLoc :=
  match a with
  | .gitCmd c ("stash" :: sub) ok _ =>
    if c == repo && ok then
      match sub, loc with
      | "push" :: _, .inWorktree => .inStash
      | ["pop"], .inStash => .inWorktree
      | ["drop"], .inStash => .dropped
      | _, _ => loc
    else loc
  | _ => loc

/-- Where the uncommitted changes of `repo` end up after a trace,
starting dirty in the worktree. -/
def changesAfter (repo : String) (tr : List Action) : ChangesLoc :=
  tr.foldl (stashStep repo) .inWorktree

def Action.isStashPush (repo : String) : Action → Bool
  | .gitCmd c ("stash" :: "push" :: _) _ _ => c == repo
  | _ => false

def Action.isStashDrop (repo : String) : Action → Bool
  | .gitCmd c ["stash", "drop"] _ _ => c == repo
  | _ => false

def Action.isMergeOf (cwd src : String) : Action → Bool
  | .gitCmd c ["merge", s, "--no-edit"] _ _ => c == cwd && s == src
  | _ => false

/-! ## Basic facts about `get_current_task` and task-list updates -/

theorem get_current_task_getElem {ts : List Task} {i : Nat} {t : Task}
    (h : get_current_task ts = some (i, t)) : ts[i]? = some t := by
  induction ts generalizing i with
  | nil => simp [get_current_task] at h
  | cons hd tl ih =>
    unfold get_current_task at h
    by_cases hs : (hd.status == "pending" || hd.status == "in_progress") = true
    · rw [if_pos hs] at h
      cases h
      simp
    · rw [if_neg hs] at h
      cases hgt : get_current_task tl with
      | none => rw [hgt] at h; simp at h
      | some p =>
        rw [hgt] at h
        obtain ⟨i', t'⟩ := p
        simp only [Option.map_some'] at h
        cases h
        simpa using ih hgt

theorem get_current_task_active {ts : List Task} {i : Nat} {t : Task}
    (h : get_current_task ts = some (i, t)) :
    t.status = "pending" ∨ t.status = "in_progress" := by
  induction ts generalizing i with
  | nil => simp [get_current_task] at h
  | cons hd tl ih =>
    unfold get_current_task at h
    by_cases hs : (hd.status == "pending" || hd.status == "in_progress") = true
    · rw [if_pos hs] at h
      cases h
      rcases Bool.or_eq_true_iff.mp hs with h1 | h1
      · exact Or.inl (by simpa using h1)
      · exact Or.inr (by simpa using h1)
    · rw [if_neg hs] at h
      cases hgt : get_current_task tl with
      | none => rw [hgt] at h; simp at h
      | some p =>
        rw [hgt] at h
        obtain ⟨i', t'⟩ := p
        simp only [Option.map_some'] at h
        cases h
        exact ih hgt

theorem get_current_task_lt_length {ts : List Task} {i : Nat} {t : Task}
    (h : get_current_task ts = some (i, t)) : i < ts.length := by
  have := get_current_task_getElem h
  exact (List.getElem?_eq_some.mp this).1

theorem getD_of_getElem {ts : List Task} {i : Nat} {t d : Task}
    (h : ts[i]? = some t) : ts.getD i d = t := by
  rw [List.getD_eq_getElem?_getD, h]
  rfl

theorem getD_set_self {ts : List Task} {i : Nat} {v d : Task} (h : i < ts.length) :
    (ts.set i v).getD i d = v := by
  rw [List.getD_eq_getElem?_getD, List.getElem?_set_eq_of_lt _ h]
  rfl

theorem getD_set_ne {ts : List Task} {i j : Nat} {v d : Task} (h : i ≠ j) :
    (ts.set i v).getD j d = ts.getD j d := by
  rw [List.getD_eq_getElem?_getD, List.getElem?_set_ne h, ← List.getD_eq_getElem?_getD]

/-- Updating entry `i` with a task whose attempts dominate the old
entry's attempts never decreases any entry's attempts counter. -/
theorem getD_set_attempts_le {ts : List Task} {i : Nat} {v d : Task}
    (h : ∀ u, ts[i]? = some u → u.attempts ≤ v.attempts) (j : Nat) :
    (ts.getD j d).attempts ≤ ((ts.set i v).getD j d).attempts := by
  by_cases hij : i = j
  · subst hij
    by_cases hlen : i < ts.length
    · have h1 : ts[i]? = some (ts[i]) := List.getElem?_eq_getElem hlen
      rw [getD_of_getElem h1, getD_set_self hlen]
      exact h _ h1
    · rw [List.set_eq_of_length_le (Nat.le_of_not_lt hlen)]
  · rw [getD_set_ne hij]

/-! ## Helper facts about git-only traces -/

theorem isTmuxClear_false_of_isGitCmd {a : Action} (h : a.isGitCmd = true) :
    a.isTmuxClear = false := by
  cases a <;> simp_all [Action.isGitCmd, Action.isTmuxClear]

theorem createBranchStep_gitOnly (cfg : Config) (git : GitEnv) (task_id : String)
    (acc : List Action) (agent : String)
    (hacc : ∀ a ∈ acc, a.isGitCmd = true) :
    ∀ a ∈ createBranchStep cfg git task_id acc agent, a.isGitCmd = true := by
  intro a ha
  simp only [createBranchStep, run_git_command] at ha
  split at ha
  · exact hacc a ha
  · simp only [List.mem_append, List.mem_cons, List.not_mem_nil, or_false] at ha
    rcases ha with ((h1 | h1) | h1) | h1
    · exact hacc a h1
    · rcases h1 with rfl | rfl <;> rfl
    · split at h1
      · simp only [List.mem_cons, List.not_mem_nil, or_false] at h1
        subst h1; rfl
      · cases h1
    · subst h1; rfl

theorem create_task_branches_gitOnly (cfg : Config) (git : GitEnv) (task_id : String) :
    ∀ a ∈ create_task_branches cfg git task_id, a.isGitCmd = true := by
  unfold create_task_branches
  split
  · simp
  · simp only [List.foldl]
    exact createBranchStep_gitOnly cfg git task_id _ "refactor"
      (createBranchStep_gitOnly cfg git task_id _ "dev"
        (createBranchStep_gitOnly cfg git task_id _ "qa" (by simp)))

/-- **C9.** The claim says that assigning a task different from the
previously bound one emits a context-reset (`/clear`) to each agent
before branch creation.  In the source, `assign_task_to_qa` first
executes `current_task_id = task["id"]` and only then evaluates the
guard `if current_task_id != task["id"]`, which therefore compares the
just-assigned value with itself and is always false: `tmux_clear` is
dead code, and no call of `assign_task_to_qa` — whatever task was
previously bound in the state — ever emits a context-reset signal. -/
theorem c9_assign_never_emits_context_reset (cfg : Config) (git : GitEnv)
    (st : OrchState) (i : Nat) (task : Task) :
    ∀ a ∈ (assign_task_to_qa cfg git st i task).2, a.isTmuxClear = false := by
  intro a ha
  simp only [assign_task_to_qa, bne_self_eq_false, Bool.false_eq_true, if_false,
    List.nil_append, List.mem_append, List.mem_cons, List.not_mem_nil, or_false] at ha
  rcases ha with h1 | rfl | rfl | rfl
  · exact isTmuxClear_false_of_isGitCmd (create_task_branches_gitOnly cfg git task.id a h1)
  · rfl
  · rfl
  · rfl

/-- **C10.** For a recipient other than `dev`, `qa`, `refactor`, both
`check_new_messages` and `clear_mailbox` silently fall back to the dev
mailbox (`dir_map.get(recipient, self.to_dev_dir)`): polling returns
dev's new messages, and clearing deletes all of dev's message files. -/
theorem c10_unknown_recipient_dev_fallback (w : MailboxWatcher) (fs : FS) (r : String)
    (h1 : r ≠ "dev") (h2 : r ≠ "qa") (h3 : r ≠ "refactor") :
    w.check_new_messages fs r = w.check_new_messages fs "dev"
    ∧ w.clear_mailbox fs r = w.clear_mailbox fs "dev"
    ∧ w.clear_mailbox fs r w.to_dev_dir = [] := by
  have hd : w.dirFor r = w.to_dev_dir := by
    simp [MailboxWatcher.dirFor, h1, h2, h3]
  have hdev : w.dirFor "dev" = w.to_dev_dir := by
    simp [MailboxWatcher.dirFor]
  refine ⟨?_, ?_, ?_⟩
  · unfold MailboxWatcher.check_new_messages
    rw [hd, hdev]
  · unfold MailboxWatcher.clear_mailbox
    rw [hd, hdev]
  · unfold MailboxWatcher.clear_mailbox
    rw [hd]
    simp

/-- Concrete fixture: a fresh watcher and an arbitrary filesystem with
one well-formed message in the dev mailbox. -/
def fsW : FS := fun d =>
  if d == "mb/to_dev" then
    [{ stem := "orch-1-note", content := some { sender := "qa", read := false, payload := "x" } }]
  else []

/-- Witness for C10 at the concrete unknown recipient `"ops"`. -/
theorem c10_witness :
    ("ops" ≠ "dev" ∧ "ops" ≠ "qa" ∧ "ops" ≠ "refactor")
    ∧ ((MailboxWatcher.init "mb").check_new_messages fsW "ops"
         = (MailboxWatcher.init "mb").check_new_messages fsW "dev"
       ∧ (MailboxWatcher.init "mb").clear_mailbox fsW "ops"
         = (MailboxWatcher.init "mb").clear_mailbox fsW "dev"
       ∧ (MailboxWatcher.init "mb").clear_mailbox fsW "ops"
           (MailboxWatcher.init "mb").to_dev_dir = []) :=
  ⟨⟨by decide, by decide, by decide⟩,
   c10_unknown_recipient_dev_fallback (MailboxWatcher.init "mb") fsW "ops"
     (by decide) (by decide) (by decide)⟩

/-- **C7.** The claim says `decide()` never lets an exception escape:
every inference-service response yields either the parsed decision or
the fixed `flag_human` fail-safe.  The code catches only
`json.JSONDecodeError` and `requests.RequestException`; when the
service returns HTTP 200 with body `{"response": "[1, 2]"}` (braces
written `\x7b`/`\x7d` here), `json.loads` succeeds with a *list*, and
the success-path log line `decision.get("action")` raises
`AttributeError`, which escapes `decide()` — contradicting both the
claim and the function's own docstring ("Returns dict with ..."). -/
theorem c7_decide_raises_on_list_payload :
    OllamaClient.decide false "status update"
      (.ok 200 "\x7b\"response\": \"[1, 2]\"\x7d")
      = .error (.attributeError "object has no attribute get") := by
  rfl

/-! ## Attempts-counter behaviour of `handle_refactor_message` (C1–C3) -/

/-- After the pass-verdict completion path, the current task's entry
keeps its (already incremented) attempts counter, and no entry's
attempts counter decreases. -/
theorem refactorPassComplete_attempts (cfg : Config) (git : GitEnv) (st1 : OrchState)
    (i : Nat) (task : Task) (mergeActs : List Action)
    (hget : st1.tasks[i]? = some task) :
    (((refactorPassComplete cfg git st1 i task mergeActs).1.tasks.getD i default).attempts
        = task.attempts)
    ∧ ∀ j, (st1.tasks.getD j default).attempts
        ≤ ((refactorPassComplete cfg git st1 i task mergeActs).1.tasks.getD j default).attempts := by
  have hlen : i < st1.tasks.length := (List.getElem?_eq_some.mp hget).1
  have hmono2 : ∀ j, (st1.tasks.getD j default).attempts
      ≤ ((st1.tasks.set i { task with status := "completed" }).getD j default).attempts := by
    intro j
    refine getD_set_attempts_le ?_ j
    intro u hu
    rw [hget] at hu
    cases hu
    exact le_refl _
  have hT2 : (st1.tasks.set i { task with status := "completed" }).getD i default
      = { task with status := "completed" } := getD_set_self hlen
  unfold refactorPassComplete
  cases hnext : get_current_task (st1.tasks.set i { task with status := "completed" }) with
  | none =>
    simp only [hnext]
    exact ⟨by rw [hT2], hmono2⟩
  | some p =>
    obtain ⟨j2, nt⟩ := p
    have hnt := get_current_task_getElem hnext
    have hactive := get_current_task_active hnext
    have hne : j2 ≠ i := by
      intro hji
      subst hji
      rw [List.getElem?_set_eq_of_lt _ hlen] at hnt
      cases hnt
      rcases hactive with ha | ha <;> simp at ha
    simp only [hnext, assign_task_to_qa]
    refine ⟨?_, ?_⟩
    · rw [getD_set_ne hne, hT2]
    · intro j
      refine le_trans (hmono2 j) (getD_set_attempts_le ?_ j)
      intro u hu
      rw [hnt] at hu
      cases hu
      exact le_refl _

/-- **C1 (corrected).** The claim says `attempts` is incremented only
on a fix-required or fail verdict and that a `pass` (or unrecognized)
verdict leaves it unchanged.  In the source, `handle_refactor_message`
executes `task["attempts"] += 1` before examining the verdict, so the
counter is incremented exactly once for *every* refactor message
handled while a task is active, whatever the verdict.  The
non-decreasing part of the claim does hold: no handler path ever
lowers any task's attempts counter. -/
theorem c1_attempts_increment_every_refactor_message (cfg : Config) (git : GitEnv)
    (llmD : List (String × PyVal)) (st : OrchState) (msgStatus : String)
    (i : Nat) (t : Task) (h : get_current_task st.tasks = some (i, t)) :
    (((handle_refactor_message cfg git llmD st msgStatus).1.tasks.getD i default).attempts
        = t.attempts + 1)
    ∧ ∀ j, (st.tasks.getD j default).attempts
        ≤ ((handle_refactor_message cfg git llmD st msgStatus).1.tasks.getD j default).attempts := by
  have hget := get_current_task_getElem h
  have hlen := get_current_task_lt_length h
  have hlen1 : i < (st.tasks.set i { t with attempts := t.attempts + 1 }).length := by
    rw [List.length_set]; exact hlen
  have hget1 : (st.tasks.set i { t with attempts := t.attempts + 1 })[i]?
      = some { t with attempts := t.attempts + 1 } := List.getElem?_set_eq_of_lt _ hlen
  have f1 : (st.tasks.set i { t with attempts := t.attempts + 1 }).getD i default
      = { t with attempts := t.attempts + 1 } := getD_set_self hlen
  have f2 : ∀ j, (st.tasks.getD j default).attempts
      ≤ ((st.tasks.set i { t with attempts := t.attempts + 1 }).getD j default).attempts := by
    intro j
    refine getD_set_attempts_le ?_ j
    intro u hu
    rw [hget] at hu
    cases hu
    exact Nat.le_succ _
  have f1a : ((st.tasks.set i { t with attempts := t.attempts + 1 }).getD i default).attempts
      = t.attempts + 1 := by rw [f1]
  have fstuck : ∀ (s : String),
      (((st.tasks.set i { t with attempts := t.attempts + 1 }).set i
          { t with attempts := t.attempts + 1, status := s }).getD i default).attempts
        = t.attempts + 1
      ∧ ∀ j, (st.tasks.getD j default).attempts
        ≤ (((st.tasks.set i { t with attempts := t.attempts + 1 }).set i
            { t with attempts := t.attempts + 1, status := s }).getD j default).attempts := by
    intro s
    refine ⟨by rw [getD_set_self hlen1], ?_⟩
    intro j
    refine le_trans (f2 j) (getD_set_attempts_le ?_ j)
    intro u hu
    rw [hget1] at hu
    cases hu
    exact le_refl _
  unfold handle_refactor_message
  simp only [h]
  by_cases hp : (msgStatus == "pass") = true
  · rw [if_pos hp]
    by_cases hr : (cfg.repo_dir != "") = true
    · rw [if_pos hr]
      rcases hgm : git_merge_into_default cfg git cfg.repo_dir
          ("blue/" ++ (st.current_task_id.getD t.id)) with ⟨⟨succ, out⟩, mActs⟩
      simp only [hgm]
      have hpass := refactorPassComplete_attempts cfg git
        { st with tasks := st.tasks.set i { t with attempts := t.attempts + 1 } }
        i { t with attempts := t.attempts + 1 } mActs hget1
      cases succ with
      | false => exact ⟨f1a, f2⟩ 
      | true =>
        simp only [Bool.not_true, Bool.false_eq_true, if_false]
        exact ⟨hpass.1, fun j => le_trans (f2 j) (hpass.2 j)⟩
    · rw [if_neg hr]
      have hpass := refactorPassComplete_attempts cfg git
        { st with tasks := st.tasks.set i { t with attempts := t.attempts + 1 } }
        i { t with attempts := t.attempts + 1 } [] hget1
      exact ⟨hpass.1, fun j => le_trans (f2 j) (hpass.2 j)⟩
  · rw [if_neg hp]
    by_cases hf : (msgStatus == "fail") = true
    · rw [if_pos hf]
      by_cases hm : cfg.max_attempts_per_task ≤ t.attempts + 1
      · rw [if_pos hm]
        exact fstuck "stuck"
      · rw [if_neg hm]
        exact ⟨f1a, f2⟩
    · rw [if_neg hf]
      cases hact : pyGetD llmD "action" (PyVal.str "flag_human") with
      | str a =>
        simp only [hact]
        by_cases hfh : (a == "flag_human") = true
        · rw [if_pos hfh]
          exact fstuck "stuck"
        · rw [if_neg hfh]
          exact ⟨f1a, f2⟩
      | null => simp only [hact]; exact ⟨f1a, f2⟩
      | bool b => simp only [hact]; exact ⟨f1a, f2⟩
      | num n => simp only [hact]; exact ⟨f1a, f2⟩
      | list xs => simp only [hact]; exact ⟨f1a, f2⟩
      | dict kvs => simp only [hact]; exact ⟨f1a, f2⟩

/-! ## Concrete fixtures for counterexamples and witnesses -/

/-- Concrete task fixture. -/
def mkTask (tid status : String) (attempts : Nat) : Task :=
  { id := tid, title := tid, description := "", status := status, attempts := attempts }

/-- Config with no git repository configured (git operations disabled,
exactly as the source behaves when `repo_dir` is unset). -/
def cfgNoRepo : Config :=
  { max_attempts_per_task := 3
    repo_dir := ""
    default_branch := "main"
    qa_working_dir := ""
    dev_working_dir := ""
    refactor_working_dir := "" }

/-- A git environment where every command succeeds with empty output. -/
def gitNull : GitEnv := fun _ _ => (true, "")

def stC1 : OrchState :=
  { tasks := [mkTask "t1" "in_progress" 0]
    rgr_state := RGRState.WAITING_REFACTOR_BLUE
    current_task_id := some "t1" }

/-- **C1 counterexample.** A refactor message with verdict `"pass"` for
the current task with `attempts = 0` leaves the counter at 1, not 0:
the claim's "a pass verdict leaves the attempts counter unchanged" is
false on the code, which runs `task["attempts"] += 1` before looking
at the verdict. -/
theorem c1_counterexample_pass_increments :
    (mkTask "t1" "in_progress" 0).attempts = 0
    ∧ (((handle_refactor_message cfgNoRepo gitNull [] stC1 "pass").1.tasks.getD 0
          default).attempts = 1) := by
  exact ⟨rfl, by decide⟩

/-- Witness for the amended C1 theorem at a concrete state. -/
theorem c1_witness :
    (get_current_task stC1.tasks = some (0, mkTask "t1" "in_progress" 0))
    ∧ ((((handle_refactor_message cfgNoRepo gitNull [] stC1 "fail").1.tasks.getD 0
          default).attempts = (mkTask "t1" "in_progress" 0).attempts + 1)
       ∧ ∀ j, (stC1.tasks.getD j default).attempts
          ≤ ((handle_refactor_message cfgNoRepo gitNull [] stC1 "fail").1.tasks.getD j
              default).attempts) :=
  ⟨by decide,
   c1_attempts_increment_every_refactor_message cfgNoRepo gitNull [] stC1 "fail" 0
     (mkTask "t1" "in_progress" 0) (by decide)⟩

/-! ## C2: fail verdict at attempts = max − 1 -/

/-- **C2 (corrected).** The claim says a fail verdict at attempts
`max−1` sends fix-required to the implementer and waits for the GREEN
phase.  In the source the counter is incremented first (reaching
`max`), then compared with `attempts >= max`, so this very message
marks the task stuck, saves it, returns to IDLE, and writes no mailbox
message at all; the fix-required retry path is taken only when the
pre-message counter is at most `max−2`. -/
theorem c2_fail_at_max_minus_one_marks_stuck (cfg : Config) (git : GitEnv)
    (llmD : List (String × PyVal)) (st : OrchState)
    (i : Nat) (t : Task) (h : get_current_task st.tasks = some (i, t))
    (hatt : t.attempts + 1 = cfg.max_attempts_per_task) :
    (((handle_refactor_message cfg git llmD st "fail").1.tasks.getD i default).status
        = "stuck")
    ∧ (((handle_refactor_message cfg git llmD st "fail").1.tasks.getD i default).attempts
        = cfg.max_attempts_per_task)
    ∧ (handle_refactor_message cfg git llmD st "fail").1.rgr_state = RGRState.IDLE
    ∧ Action.saveTasks ∈ (handle_refactor_message cfg git llmD st "fail").2
    ∧ ∀ a ∈ (handle_refactor_message cfg git llmD st "fail").2,
        a.isWriteMailbox = false := by
  have hlen := get_current_task_lt_length h
  have hlen1 : i < (st.tasks.set i { t with attempts := t.attempts + 1 }).length := by
    rw [List.length_set]; exact hlen
  have hcond : cfg.max_attempts_per_task ≤ t.attempts + 1 := le_of_eq hatt.symm
  unfold handle_refactor_message
  simp only [h, show (("fail" : String) == "pass") = false from rfl,
    show (("fail" : String) == "fail") = true from rfl,
    Bool.false_eq_true, if_false, if_true]
  rw [if_pos hcond]
  refine ⟨?_, ?_, rfl, ?_, ?_⟩
  · rw [getD_set_self hlen1]
  · rw [getD_set_self hlen1]
    exact hatt
  · simp
  · intro a ha
    simp only [List.mem_cons, List.not_mem_nil, or_false] at ha
    rcases ha with rfl | rfl <;> rfl

def stC2 : OrchState :=
  { tasks := [mkTask "t1" "in_progress" 2]
    rgr_state := RGRState.WAITING_REFACTOR_BLUE
    current_task_id := some "t1" }

/-- **C2 counterexample.** With `max_attempts_per_task = 3` and the
current task at `attempts = 2 = max−1`, a `"fail"` verdict produces
none of the outcomes the claim describes: the state is not
WAITING_DEV_GREEN, the task is not left in_progress, and no
fix-required message is written to the dev mailbox. -/
theorem c2_counterexample :
    (handle_refactor_message cfgNoRepo gitNull [] stC2 "fail").1.rgr_state
        ≠ RGRState.WAITING_DEV_GREEN
    ∧ ((handle_refactor_message cfgNoRepo gitNull [] stC2 "fail").1.tasks.getD 0
          default).status ≠ "in_progress"
    ∧ ∀ a ∈ (handle_refactor_message cfgNoRepo gitNull [] stC2 "fail").2,
        a ≠ Action.writeMailbox "dev" "fix_required" := by
  decide

/-- Witness for the amended C2 theorem at a concrete state. -/
theorem c2_witness :
    (get_current_task stC2.tasks = some (0, mkTask "t1" "in_progress" 2)
     ∧ (mkTask "t1" "in_progress" 2).attempts + 1 = cfgNoRepo.max_attempts_per_task)
    ∧ ((((handle_refactor_message cfgNoRepo gitNull [] stC2 "fail").1.tasks.getD 0
          default).status = "stuck")
       ∧ (((handle_refactor_message cfgNoRepo gitNull [] stC2 "fail").1.tasks.getD 0
            default).attempts = cfgNoRepo.max_attempts_per_task)
       ∧ (handle_refactor_message cfgNoRepo gitNull [] stC2 "fail").1.rgr_state
           = RGRState.IDLE
       ∧ Action.saveTasks ∈ (handle_refactor_message cfgNoRepo gitNull [] stC2 "fail").2
       ∧ ∀ a ∈ (handle_refactor_message cfgNoRepo gitNull [] stC2 "fail").2,
           a.isWriteMailbox = false) :=
  ⟨⟨by decide, by decide⟩,
   c2_fail_at_max_minus_one_marks_stuck cfgNoRepo gitNull [] stC2 0
     (mkTask "t1" "in_progress" 2) (by decide) (by decide)⟩

/-! ## C3: fail verdict at attempts = max -/

/-- **C3 (corrected).** The claim's stuck-path description is right —
the task is marked stuck and saved, the state returns to IDLE, and no
mailbox message is sent — but the handler does *not* auto-assign the
next pending task: the stuck branch only prints a human-review notice,
and every other task entry (including a pending successor) is left
exactly as it was. -/
theorem c3_fail_at_max_marks_stuck_no_assign (cfg : Config) (git : GitEnv)
    (llmD : List (String × PyVal)) (st : OrchState)
    (i : Nat) (t : Task) (h : get_current_task st.tasks = some (i, t))
    (hatt : t.attempts = cfg.max_attempts_per_task) :
    (((handle_refactor_message cfg git llmD st "fail").1.tasks.getD i default).status
        = "stuck")
    ∧ (handle_refactor_message cfg git llmD st "fail").1.rgr_state = RGRState.IDLE
    ∧ Action.saveTasks ∈ (handle_refactor_message cfg git llmD st "fail").2
    ∧ (∀ a ∈ (handle_refactor_message cfg git llmD st "fail").2,
        a.isWriteMailbox = false)
    ∧ ∀ j, j ≠ i →
        (handle_refactor_message cfg git llmD st "fail").1.tasks.getD j default
          = st.tasks.getD j default := by
  have hlen := get_current_task_lt_length h
  have hlen1 : i < (st.tasks.set i { t with attempts := t.attempts + 1 }).length := by
    rw [List.length_set]; exact hlen
  have hcond : cfg.max_attempts_per_task ≤ t.attempts + 1 := by
    rw [← hatt]; exact Nat.le_succ _
  unfold handle_refactor_message
  simp only [h, show (("fail" : String) == "pass") = false from rfl,
    show (("fail" : String) == "fail") = true from rfl,
    Bool.false_eq_true, if_false, if_true]
  rw [if_pos hcond]
  refine ⟨?_, rfl, ?_, ?_, ?_⟩
  · rw [getD_set_self hlen1]
  · simp
  · intro a ha
    simp only [List.mem_cons, List.not_mem_nil, or_false] at ha
    rcases ha with rfl | rfl <;> rfl
  · intro j hj
    rw [getD_set_ne (fun hij => hj hij.symm), getD_set_ne (fun hij => hj hij.symm)]

def stC3 : OrchState :=
  { tasks := [mkTask "t1" "in_progress" 3, mkTask "t2" "pending" 0]
    rgr_state := RGRState.WAITING_REFACTOR_BLUE
    current_task_id := some "t1" }

/-- **C3 counterexample.** With `max_attempts_per_task = 3`, the
current task at `attempts = 3 = max` and a pending successor `t2`, a
`"fail"` verdict leaves `t2` pending, the state IDLE (not
WAITING_QA_RED) and writes no `task_assignment` message: the next
pending task is *not* auto-assigned, refuting that part of the
claim. -/
theorem c3_counterexample :
    ((handle_refactor_message cfgNoRepo gitNull [] stC3 "fail").1.tasks.getD 1
        default).status = "pending"
    ∧ (handle_refactor_message cfgNoRepo gitNull [] stC3 "fail").1.rgr_state
        = RGRState.IDLE
    ∧ ∀ a ∈ (handle_refactor_message cfgNoRepo gitNull [] stC3 "fail").2,
        a ≠ Action.writeMailbox "qa" "task_assignment" := by
  decide

/-- Witness for the amended C3 theorem at a concrete state. -/
theorem c3_witness :
    (get_current_task stC3.tasks = some (0, mkTask "t1" "in_progress" 3)
     ∧ (mkTask "t1" "in_progress" 3).attempts = cfgNoRepo.max_attempts_per_task)
    ∧ ((((handle_refactor_message cfgNoRepo gitNull [] stC3 "fail").1.tasks.getD 0
          default).status = "stuck")
       ∧ (handle_refactor_message cfgNoRepo gitNull [] stC3 "fail").1.rgr_state
           = RGRState.IDLE
       ∧ Action.saveTasks ∈ (handle_refactor_message cfgNoRepo gitNull [] stC3 "fail").2
       ∧ (∀ a ∈ (handle_refactor_message cfgNoRepo gitNull [] stC3 "fail").2,
           a.isWriteMailbox = false)
       ∧ ∀ j, j ≠ 0 →
           (handle_refactor_message cfgNoRepo gitNull [] stC3 "fail").1.tasks.getD j
             default = stC3.tasks.getD j default) :=
  ⟨⟨by decide, by decide⟩,
   c3_fail_at_max_marks_stuck_no_assign cfgNoRepo gitNull [] stC3 0
     (mkTask "t1" "in_progress" 3) (by decide) (by decide)⟩

/-! ## C4: exactly-once surfacing per watcher lifetime -/

/-- Unfolding equation: `check_new_messages` runs `checkLoop` on the
sorted directory listing and stores the grown `_processed` set. -/
theorem check_new_messages_eq (w : MailboxWatcher) (fs : FS) (r : String) :
    w.check_new_messages fs r
      = ((checkLoop w.processed (sortByStem (fs (w.dirFor r)))).1,
         { w with processed := (checkLoop w.processed (sortByStem (fs (w.dirFor r)))).2 }) :=
  rfl

theorem runWatcher_cons (w : MailboxWatcher) (r : String) (fs : FS)
    (rest : List (String × FS)) :
    runWatcher w ((r, fs) :: rest)
      = ((w.check_new_messages fs r).1 :: (runWatcher (w.check_new_messages fs r).2 rest).1,
         (runWatcher (w.check_new_messages fs r).2 rest).2) :=
  rfl

/-- Invariants of one `check_new_messages` pass over a file list:
every returned file's stem was not in `_processed` before and is in
`_processed` after; `_processed` only grows; and the stems returned in
one pass are pairwise distinct. -/
theorem checkLoop_spec (fs : List MsgFile) : ∀ (p : List String),
    (∀ f ∈ (checkLoop p fs).1, f.stem ∉ p ∧ f.stem ∈ (checkLoop p fs).2)
    ∧ (∀ s ∈ p, s ∈ (checkLoop p fs).2)
    ∧ ((checkLoop p fs).1.map MsgFile.stem).Nodup := by
  induction fs with
  | nil =>
    intro p
    refine ⟨?_, ?_, ?_⟩ <;> simp [checkLoop]
  | cons f rest ih =>
    intro p
    unfold checkLoop
    by_cases hc : p.contains f.stem = true
    · rw [if_pos hc]
      exact ih p
    · rw [if_neg hc]
      cases hcontent : f.content with
      | none => exact ih p
      | some m =>
        have hnotmem : f.stem ∉ p := by
          intro hm
          exact hc (by simpa using hm)
        rcases hrec : checkLoop (f.stem :: p) rest with ⟨ms, p'⟩
        have ihh := ih (f.stem :: p)
        rw [hrec] at ihh
        obtain ⟨ih1, ih2, ih3⟩ := ihh
        dsimp only at ih1 ih2 ih3 ⊢
        refine ⟨?_, ?_, ?_⟩
        · intro g hg
          rcases List.mem_cons.mp hg with rfl | hg2
          · exact ⟨hnotmem, ih2 _ (List.mem_cons_self _ _)⟩
          · obtain ⟨hna, hin⟩ := ih1 g hg2
            exact ⟨fun hmem => hna (List.mem_cons_of_mem _ hmem), hin⟩
        · intro s hs
          exact ih2 s (List.mem_cons_of_mem _ hs)
        · simp only [List.map_cons, List.nodup_cons]
          refine ⟨?_, ih3⟩
          intro hmem
          rcases List.mem_map.mp hmem with ⟨g, hg, hgeq⟩
          obtain ⟨hna, _⟩ := ih1 g hg
          exact hna (by rw [hgeq]; exact List.mem_cons_self _ _)

/-- Lifetime invariant: across any sequence of polls against arbitrary
filesystem snapshots, the multiset of all surfaced stems is
duplicate-free, and none of them was in `_processed` at the start. -/
theorem runWatcher_stems_nodup (calls : List (String × FS)) : ∀ (w : MailboxWatcher),
    ((runWatcher w calls).1.flatten.map MsgFile.stem).Nodup
    ∧ ∀ s ∈ (runWatcher w calls).1.flatten.map MsgFile.stem, s ∉ w.processed := by
  induction calls with
  | nil =>
    intro w
    constructor <;> simp [runWatcher]
  | cons c rest ih =>
    intro w
    obtain ⟨r, fs⟩ := c
    rw [runWatcher_cons]
    have hsp := checkLoop_spec (sortByStem (fs (w.dirFor r))) w.processed
    obtain ⟨hsp1, hsp2, hsp3⟩ := hsp
    obtain ⟨ih1, ih2⟩ := ih (w.check_new_messages fs r).2
    simp only [List.flatten_cons, List.map_append]
    constructor
    · rw [List.nodup_append]
      refine ⟨?_, ih1, ?_⟩
      · rw [check_new_messages_eq]
        exact hsp3
      · intro s hs1 hs2
        rcases List.mem_map.mp hs1 with ⟨g, hg, rfl⟩
        rw [check_new_messages_eq] at hg
        have hin : g.stem ∈ (w.check_new_messages fs r).2.processed := by
          rw [check_new_messages_eq]
          exact (hsp1 g hg).2
        exact (ih2 _ hs2) hin
    · intro s hs
      rcases List.mem_append.mp hs with hs1 | hs1
      · rcases List.mem_map.mp hs1 with ⟨g, hg, rfl⟩
        rw [check_new_messages_eq] at hg
        exact (hsp1 g hg).1
      · intro hmem
        have hin : s ∈ (w.check_new_messages fs r).2.processed := by
          rw [check_new_messages_eq]
          exact hsp2 s hmem
        exact (ih2 s hs1) hin

/-- **C4.** For every sequence of `check_new_messages` calls on one
watcher instance, interleaved with arbitrary message-file writes
(every call sees an arbitrary filesystem snapshot, so files may be
added, rewritten, or have the `read` flag inside their payload flipped
between polls — the watcher never looks at that flag), no file stem is
ever returned twice across the watcher's lifetime. -/
theorem c4_no_stem_surfaced_twice (mailbox_dir : String) (calls : List (String × FS)) :
    ((runWatcher (MailboxWatcher.init mailbox_dir) calls).1.flatten.map MsgFile.stem).Nodup :=
  (runWatcher_stems_nodup calls (MailboxWatcher.init mailbox_dir)).1

/-! ## C5/C6: merge-conflict containment and stash safety -/

/-- Explicit value of `git_merge_branch` when the merge reports a
conflict: failure result, and a trace of the merge followed by the
abort. -/
theorem git_merge_branch_conflict (git : GitEnv) (wt src o : String)
    (hm : git wt ["merge", src, "--no-edit"] = (false, o))
    (hc : conflictOutput o = true) :
    git_merge_branch git wt src
      = ((false, "MERGE CONFLICT: " ++ o),
         [Action.gitCmd wt ["merge", src, "--no-edit"] false o,
          Action.gitCmd wt ["merge", "--abort"]
            (git wt ["merge", "--abort"]).1 (git wt ["merge", "--abort"]).2]) := by
  unfold conflictOutput at hc
  unfold git_merge_branch run_git_command
  rw [hm]
  simp [hc]

/-- Explicit value of `git_merge_branch` on a successful merge. -/
theorem git_merge_branch_success (git : GitEnv) (wt src o : String)
    (hm : git wt ["merge", src, "--no-edit"] = (true, o)) :
    git_merge_branch git wt src
      = ((true, o), [Action.gitCmd wt ["merge", src, "--no-edit"] true o]) := by
  unfold git_merge_branch run_git_command
  rw [hm]
  rfl

/-- Properties of `git_merge_into_default` when the checkout succeeds
and the merge itself reports a conflict, whatever the stash state: the
call fails, its trace consists of git commands only (so nothing is
persisted and no mailbox is written from inside it), the repository is
not left mid-merge (the conflicting merge is aborted), and the source
branch did not get merged. -/
theorem gmid_conflict_props (cfg : Config) (git : GitEnv) (R S o : String)
    (hco : (git R ["checkout", cfg.default_branch]).1 = true)
    (hm : git R ["merge", S, "--no-edit"] = (false, o))
    (hc : conflictOutput o = true) :
    (git_merge_into_default cfg git R S).1.1 = false
    ∧ (∀ a ∈ (git_merge_into_default cfg git R S).2, a.isGitCmd = true)
    ∧ midMergeAfter R (git_merge_into_default cfg git R S).2 = false
    ∧ mergedSource R S (git_merge_into_default cfg git R S).2 = false := by
  have hc' : (strContains o "CONFLICT" || strContains (pyLower o) "conflict") = true := hc
  rcases hcob : git R ["checkout", cfg.default_branch] with ⟨cok, co⟩
  rw [hcob] at hco
  simp only at hco
  subst hco
  unfold git_merge_into_default run_git_command
  dsimp only
  rw [hcob, hm]
  dsimp only
  by_cases hdirt : pyStrip (git R ["status", "--porcelain"]).2 ≠ ""
  · rw [if_pos hdirt]
    by_cases hstash : ((git R ["stash", "push", "--include-untracked", "-m",
        "orchestrator-auto-stash-before-" ++ S]).1
        && !(strContains (git R ["stash", "push", "--include-untracked", "-m",
            "orchestrator-auto-stash-before-" ++ S]).2 "No local changes")) = true
    · simp only [hstash, Bool.not_true, Bool.false_eq_true, if_false, Bool.not_false,
        if_true, hc']
      refine ⟨by simp, ?_, ?_, ?_⟩
      · intro a ha
        fin_cases ha <;> rfl
      · simp [midMergeAfter, mergeStep, hc']
      · simp [mergedSource]
    · simp only [hstash, Bool.not_true, Bool.false_eq_true, if_false, Bool.not_false,
        if_true, hc']
      refine ⟨by simp, ?_, ?_, ?_⟩
      · intro a ha
        fin_cases ha <;> rfl
      · simp [midMergeAfter, mergeStep, hc']
      · simp [mergedSource]
  · rw [if_neg hdirt]
    simp only [Bool.not_false, if_true, Bool.false_eq_true, if_false, hc']
    refine ⟨by simp, ?_, ?_, ?_⟩
    · intro a ha
      fin_cases ha <;> rfl
    · simp [midMergeAfter, mergeStep, hc']
    · simp [mergedSource]

/-- **C5.** A merge conflict in any of the three forward merges (red
branch into the dev worktree, green branch into the refactor worktree,
blue branch into the default branch) sets the pipeline state to
BLOCKED, performs zero task-status mutation (for the first two
handlers the task list is untouched; for the refactor handler the
`status` field of the current task is unchanged — only the upfront
attempts increment happened — and nothing is persisted: the trace
consists of git commands only, so there is no `saveTasks` and no
mailbox write), and the conflicting merge is aborted: the worktree is
not left mid-merge and the source branch is not merged. -/
theorem c5_merge_conflict_blocks_without_mutation (cfg : Config) (git : GitEnv)
    (llmD : List (String × PyVal)) (st : OrchState) (i : Nat) (t : Task) (tid : String)
    (h : get_current_task st.tasks = some (i, t))
    (hcid : st.current_task_id = some tid)
    (hrepo : (cfg.repo_dir != "") = true)
    (hdev : (cfg.dev_working_dir != "") = true)
    (href : (cfg.refactor_working_dir != "") = true)
    (o1 : String)
    (hm1 : git cfg.dev_working_dir ["merge", "red/" ++ tid, "--no-edit"] = (false, o1))
    (hc1 : conflictOutput o1 = true)
    (o2 : String)
    (hm2 : git cfg.refactor_working_dir ["merge", "green/" ++ tid, "--no-edit"] = (false, o2))
    (hc2 : conflictOutput o2 = true)
    (hco : (git cfg.repo_dir ["checkout", cfg.default_branch]).1 = true)
    (o3 : String)
    (hm3 : git cfg.repo_dir ["merge", "blue/" ++ tid, "--no-edit"] = (false, o3))
    (hc3 : conflictOutput o3 = true) :
    ((handle_qa_message cfg git st).1.rgr_state = RGRState.BLOCKED
     ∧ (handle_qa_message cfg git st).1.tasks = st.tasks
     ∧ (∀ a ∈ (handle_qa_message cfg git st).2, a.isGitCmd = true)
     ∧ midMergeAfter cfg.dev_working_dir (handle_qa_message cfg git st).2 = false
     ∧ mergedSource cfg.dev_working_dir ("red/" ++ tid) (handle_qa_message cfg git st).2
         = false)
    ∧ ((handle_dev_message cfg git st).1.rgr_state = RGRState.BLOCKED
     ∧ (handle_dev_message cfg git st).1.tasks = st.tasks
     ∧ (∀ a ∈ (handle_dev_message cfg git st).2, a.isGitCmd = true)
     ∧ midMergeAfter cfg.refactor_working_dir (handle_dev_message cfg git st).2 = false
     ∧ mergedSource cfg.refactor_working_dir ("green/" ++ tid)
         (handle_dev_message cfg git st).2 = false)
    ∧ ((handle_refactor_message cfg git llmD st "pass").1.rgr_state = RGRState.BLOCKED
     ∧ (((handle_refactor_message cfg git llmD st "pass").1.tasks.getD i default).status
         = t.status)
     ∧ (∀ a ∈ (handle_refactor_message cfg git llmD st "pass").2, a.isGitCmd = true)
     ∧ midMergeAfter cfg.repo_dir (handle_refactor_message cfg git llmD st "pass").2 = false
     ∧ mergedSource cfg.repo_dir ("blue/" ++ tid)
         (handle_refactor_message cfg git llmD st "pass").2 = false) := by
  have hlen := get_current_task_lt_length h
  refine ⟨?_, ?_, ?_⟩
  · -- red/<task> into the dev worktree
    unfold handle_qa_message
    simp only [h, hcid, Option.getD_some]
    rw [if_pos (by rw [hrepo, hdev]; rfl),
      git_merge_branch_conflict git cfg.dev_working_dir ("red/" ++ tid) o1 hm1 hc1]
    dsimp only
    refine ⟨rfl, rfl, ?_, ?_, ?_⟩
    · intro a ha
      fin_cases ha <;> rfl
    · simp [midMergeAfter, mergeStep, hc1]
    · simp [mergedSource]
  · -- green/<task> into the refactor worktree
    unfold handle_dev_message
    simp only [h, hcid, Option.getD_some]
    rw [if_pos (by rw [hrepo, href]; rfl),
      git_merge_branch_conflict git cfg.refactor_working_dir ("green/" ++ tid) o2 hm2 hc2]
    dsimp only
    refine ⟨rfl, rfl, ?_, ?_, ?_⟩
    · intro a ha
      fin_cases ha <;> rfl
    · simp [midMergeAfter, mergeStep, hc2]
    · simp [mergedSource]
  · -- blue/<task> into the default branch (via git_merge_into_default)
    obtain ⟨gm1, gm2, gm3, gm4⟩ :=
      gmid_conflict_props cfg git cfg.repo_dir ("blue/" ++ tid) o3 hco hm3 hc3
    unfold handle_refactor_message
    simp only [h, hcid, Option.getD_some,
      show (("pass" : String) == "pass") = true from rfl, if_true]
    rcases hgm : git_merge_into_default cfg git cfg.repo_dir ("blue/" ++ tid)
      with ⟨⟨succ, out⟩, mActs⟩
    rw [hgm] at gm1 gm2 gm3 gm4
    simp only at gm1
    subst gm1
    rw [if_pos hrepo]
    refine ⟨rfl, ?_, gm2, gm3, gm4⟩
    show ((st.tasks.set i { t with attempts := t.attempts + 1 }).getD i default).status
      = t.status
    rw [getD_set_self hlen]

/-- Concrete config with a repository and all three worktrees set. -/
def cfgRepo : Config :=
  { max_attempts_per_task := 3
    repo_dir := "/repo"
    default_branch := "main"
    qa_working_dir := "/wt/qa"
    dev_working_dir := "/wt/dev"
    refactor_working_dir := "/wt/ref" }

def c5out : String := "CONFLICT (content): Merge conflict in x"

/-- A git environment in which every three-argument merge conflicts
and everything else succeeds cleanly. -/
def gitConflict : GitEnv := fun _ args =>
  match args with
  | ["merge", _, "--no-edit"] => (false, c5out)
  | _ => (true, "")

def stC5 : OrchState :=
  { tasks := [mkTask "t1" "in_progress" 0]
    rgr_state := RGRState.WAITING_QA_RED
    current_task_id := some "t1" }

/-- Witness for C5 at a concrete conflicting git environment. -/
theorem c5_witness :
    (get_current_task stC5.tasks = some (0, mkTask "t1" "in_progress" 0)
     ∧ stC5.current_task_id = some "t1"
     ∧ (cfgRepo.repo_dir != "") = true
     ∧ (cfgRepo.dev_working_dir != "") = true
     ∧ (cfgRepo.refactor_working_dir != "") = true
     ∧ gitConflict cfgRepo.dev_working_dir ["merge", "red/" ++ "t1", "--no-edit"]
         = (false, c5out)
     ∧ conflictOutput c5out = true
     ∧ gitConflict cfgRepo.refactor_working_dir ["merge", "green/" ++ "t1", "--no-edit"]
         = (false, c5out)
     ∧ (gitConflict cfgRepo.repo_dir ["checkout", cfgRepo.default_branch]).1 = true
     ∧ gitConflict cfgRepo.repo_dir ["merge", "blue/" ++ "t1", "--no-edit"]
         = (false, c5out))
    ∧ (((handle_qa_message cfgRepo gitConflict stC5).1.rgr_state = RGRState.BLOCKED
     ∧ (handle_qa_message cfgRepo gitConflict stC5).1.tasks = stC5.tasks
     ∧ (∀ a ∈ (handle_qa_message cfgRepo gitConflict stC5).2, a.isGitCmd = true)
     ∧ midMergeAfter cfgRepo.dev_working_dir (handle_qa_message cfgRepo gitConflict stC5).2
         = false
     ∧ mergedSource cfgRepo.dev_working_dir ("red/" ++ "t1")
         (handle_qa_message cfgRepo gitConflict stC5).2 = false)
    ∧ ((handle_dev_message cfgRepo gitConflict stC5).1.rgr_state = RGRState.BLOCKED
     ∧ (handle_dev_message cfgRepo gitConflict stC5).1.tasks = stC5.tasks
     ∧ (∀ a ∈ (handle_dev_message cfgRepo gitConflict stC5).2, a.isGitCmd = true)
     ∧ midMergeAfter cfgRepo.refactor_working_dir
         (handle_dev_message cfgRepo gitConflict stC5).2 = false
     ∧ mergedSource cfgRepo.refactor_working_dir ("green/" ++ "t1")
         (handle_dev_message cfgRepo gitConflict stC5).2 = false)
    ∧ ((handle_refactor_message cfgRepo gitConflict [] stC5 "pass").1.rgr_state
         = RGRState.BLOCKED
     ∧ (((handle_refactor_message cfgRepo gitConflict [] stC5 "pass").1.tasks.getD 0
           default).status = (mkTask "t1" "in_progress" 0).status)
     ∧ (∀ a ∈ (handle_refactor_message cfgRepo gitConflict [] stC5 "pass").2,
           a.isGitCmd = true)
     ∧ midMergeAfter cfgRepo.repo_dir
         (handle_refactor_message cfgRepo gitConflict [] stC5 "pass").2 = false
     ∧ mergedSource cfgRepo.repo_dir ("blue/" ++ "t1")
         (handle_refactor_message cfgRepo gitConflict [] stC5 "pass").2 = false)) :=
  ⟨⟨by decide, by decide, by decide, by decide, by decide, by decide, by decide,
    by decide, by decide, by decide⟩,
   c5_merge_conflict_blocks_without_mutation cfgRepo gitConflict [] stC5 0
     (mkTask "t1" "in_progress" 0) "t1" (by decide) (by decide) (by decide) (by decide)
     (by decide) c5out (by decide) (by decide) c5out (by decide) (by decide) (by decide)
     c5out (by decide) (by decide)⟩

/-- **C6.** `git_merge_into_default` never loses uncommitted changes.
When the default workspace is dirty (`status --porcelain` nonempty)
and git's stash machinery behaves (push succeeds with changes to
stash, pop and drop succeed — the hypotheses below), then: the changes
are stashed first (after the first two commands they sit in the
stash); on *any* failure path — checkout failure, merge conflict, or
other merge failure — the trace restores them to the worktree before
the call returns failure; and on success they are dropped, with the
drop occurring strictly after the merge command in the trace. -/
theorem c6_merge_into_default_preserves_changes (cfg : Config) (git : GitEnv)
    (R S : String)
    (hdirty : pyStrip (git R ["status", "--porcelain"]).2 ≠ "")
    (hpush : (git R ["stash", "push", "--include-untracked", "-m",
        "orchestrator-auto-stash-before-" ++ S]).1 = true)
    (hnl : strContains (git R ["stash", "push", "--include-untracked", "-m",
        "orchestrator-auto-stash-before-" ++ S]).2 "No local changes" = false)
    (hpop : (git R ["stash", "pop"]).1 = true)
    (hdrop : (git R ["stash", "drop"]).1 = true) :
    changesAfter R ((git_merge_into_default cfg git R S).2.take 2) = ChangesLoc.inStash
    ∧ ((git_merge_into_default cfg git R S).1.1 = false →
        changesAfter R (git_merge_into_default cfg git R S).2 = ChangesLoc.inWorktree)
    ∧ ((git_merge_into_default cfg git R S).1.1 = true →
        changesAfter R (git_merge_into_default cfg git R S).2 = ChangesLoc.dropped
        ∧ ∃ (k l : Nat) (out1 : String) (ok2 : Bool) (out2 : String), k < l
            ∧ (git_merge_into_default cfg git R S).2[k]?
                = some (Action.gitCmd R ["merge", S, "--no-edit"] true out1)
            ∧ (git_merge_into_default cfg git R S).2[l]?
                = some (Action.gitCmd R ["stash", "drop"] ok2 out2)) := by
  unfold git_merge_into_default run_git_command
  dsimp only
  rw [if_pos hdirty]
  simp only [hpush, hnl, Bool.not_false, Bool.true_and, if_true]
  rcases hcob : git R ["checkout", cfg.default_branch] with ⟨cok, co⟩
  cases cok with
  | false =>
    refine ⟨?_, ?_, ?_⟩
    · simp [changesAfter, stashStep, hpush]
    · intro _
      simp [changesAfter, stashStep, hpush, hpop]
    · intro hfalse
      simp at hfalse
  | true =>
    rcases hmr : git R ["merge", S, "--no-edit"] with ⟨mok, mo⟩
    cases mok with
    | false =>
      by_cases hconf : (strContains mo "CONFLICT" || strContains (pyLower mo) "conflict")
          = true
      · rw [if_pos hconf]
        refine ⟨?_, ?_, ?_⟩
        · simp [changesAfter, stashStep, hpush]
        · intro _
          simp [changesAfter, stashStep, hpush, hpop]
        · intro hfalse
          simp at hfalse
      · rw [if_neg hconf]
        refine ⟨?_, ?_, ?_⟩
        · simp [changesAfter, stashStep, hpush]
        · intro _
          simp [changesAfter, stashStep, hpush, hpop]
        · intro hfalse
          simp at hfalse
    | true =>
      refine ⟨?_, ?_, ?_⟩
      · simp [changesAfter, stashStep, hpush]
      · intro hfalse
        simp at hfalse
      · intro _
        refine ⟨?_, 3, 4, mo, (git R ["stash", "drop"]).1, (git R ["stash", "drop"]).2,
          by norm_num, rfl, rfl⟩
        simp [changesAfter, stashStep, hpush, hdrop]

/-- A git environment with a dirty default workspace; every command
succeeds. -/
def gitC6 : GitEnv := fun _ args =>
  match args with
  | ["status", "--porcelain"] => (true, " M x.txt")
  | _ => (true, "")

/-- Witness for C6 at a concrete dirty repository. -/
theorem c6_witness :
    (pyStrip (gitC6 "/repo" ["status", "--porcelain"]).2 ≠ ""
     ∧ (gitC6 "/repo" ["stash", "push", "--include-untracked", "-m",
          "orchestrator-auto-stash-before-" ++ "blue/t1"]).1 = true
     ∧ strContains (gitC6 "/repo" ["stash", "push", "--include-untracked", "-m",
          "orchestrator-auto-stash-before-" ++ "blue/t1"]).2 "No local changes" = false
     ∧ (gitC6 "/repo" ["stash", "pop"]).1 = true
     ∧ (gitC6 "/repo" ["stash", "drop"]).1 = true)
    ∧ (changesAfter "/repo" ((git_merge_into_default cfgRepo gitC6 "/repo" "blue/t1").2.take 2)
          = ChangesLoc.inStash
       ∧ ((git_merge_into_default cfgRepo gitC6 "/repo" "blue/t1").1.1 = false →
            changesAfter "/repo" (git_merge_into_default cfgRepo gitC6 "/repo" "blue/t1").2
              = ChangesLoc.inWorktree)
       ∧ ((git_merge_into_default cfgRepo gitC6 "/repo" "blue/t1").1.1 = true →
            changesAfter "/repo" (git_merge_into_default cfgRepo gitC6 "/repo" "blue/t1").2
              = ChangesLoc.dropped
            ∧ ∃ (k l : Nat) (out1 : String) (ok2 : Bool) (out2 : String), k < l
                ∧ (git_merge_into_default cfgRepo gitC6 "/repo" "blue/t1").2[k]?
                    = some (Action.gitCmd "/repo" ["merge", "blue/t1", "--no-edit"] true out1)
                ∧ (git_merge_into_default cfgRepo gitC6 "/repo" "blue/t1").2[l]?
                    = some (Action.gitCmd "/repo" ["stash", "drop"] ok2 out2))) :=
  ⟨⟨by decide, by decide, by decide, by decide, by decide⟩,
   c6_merge_into_default_preserves_changes cfgRepo gitC6 "/repo" "blue/t1"
     (by decide) (by decide) (by decide) (by decide) (by decide)⟩

/-! ## C8: pass verdict with successful merge into the default branch -/

theorem isSaveTasks_false_of_isGitCmd {a : Action} (h : a.isGitCmd = true) :
    a.isSaveTasks = false := by
  cases a <;> simp_all [Action.isGitCmd, Action.isSaveTasks]

/-- Whatever the git outcomes, `git_merge_into_default` only ever runs
git commands: it neither persists tasks nor writes mailboxes. -/
theorem gmid_gitOnly (cfg : Config) (git : GitEnv) (R S : String) :
    ∀ a ∈ (git_merge_into_default cfg git R S).2, a.isGitCmd = true := by
  unfold git_merge_into_default run_git_command
  dsimp only
  rcases hcob : git R ["checkout", cfg.default_branch] with ⟨cok, co⟩
  rcases hmr : git R ["merge", S, "--no-edit"] with ⟨mok, mo⟩
  by_cases hdirt : pyStrip (git R ["status", "--porcelain"]).2 ≠ ""
  · rw [if_pos hdirt]
    by_cases hstash : ((git R ["stash", "push", "--include-untracked", "-m",
        "orchestrator-auto-stash-before-" ++ S]).1
        && !(strContains (git R ["stash", "push", "--include-untracked", "-m",
            "orchestrator-auto-stash-before-" ++ S]).2 "No local changes")) = true
    · simp only [hstash, eq_self_iff_true, if_true, Bool.not_false, Bool.not_true,
        Bool.false_eq_true, if_false]
      cases cok
      · simp only [Bool.not_false, eq_self_iff_true, if_true]
        intro a ha
        fin_cases ha <;> rfl
      · simp only [Bool.not_true, Bool.false_eq_true, if_false]
        cases mok
        · simp only [Bool.not_false, eq_self_iff_true, if_true]
          by_cases hconf : (strContains mo "CONFLICT"
              || strContains (pyLower mo) "conflict") = true
          · rw [if_pos hconf]
            intro a ha
            fin_cases ha <;> rfl
          · rw [if_neg hconf]
            intro a ha
            fin_cases ha <;> rfl
        · simp only [Bool.not_true, Bool.false_eq_true, if_false]
          intro a ha
          fin_cases ha <;> rfl
    · simp only [hstash, eq_self_iff_true, if_true, if_false, Bool.not_false,
        Bool.not_true, Bool.false_eq_true]
      cases cok
      · simp only [Bool.not_false, eq_self_iff_true, if_true]
        intro a ha
        fin_cases ha <;> rfl
      · simp only [Bool.not_true, Bool.false_eq_true, if_false]
        cases mok
        · simp only [Bool.not_false, eq_self_iff_true, if_true]
          by_cases hconf : (strContains mo "CONFLICT"
              || strContains (pyLower mo) "conflict") = true
          · rw [if_pos hconf]
            intro a ha
            fin_cases ha <;> rfl
          · rw [if_neg hconf]
            intro a ha
            fin_cases ha <;> rfl
        · simp only [Bool.not_true, Bool.false_eq_true, if_false]
          intro a ha
          fin_cases ha <;> rfl
  · rw [if_neg hdirt]
    simp only [Bool.false_eq_true, if_false]
    cases cok
    · simp only [Bool.not_false, eq_self_iff_true, if_true]
      intro a ha
      fin_cases ha <;> rfl
    · simp only [Bool.not_true, Bool.false_eq_true, if_false]
      cases mok
      · simp only [Bool.not_false, eq_self_iff_true, if_true]
        by_cases hconf : (strContains mo "CONFLICT"
            || strContains (pyLower mo) "conflict") = true
        · rw [if_pos hconf]
          intro a ha
          fin_cases ha <;> rfl
        · rw [if_neg hconf]
          intro a ha
          fin_cases ha <;> rfl
      · simp only [Bool.not_true, Bool.false_eq_true, if_false]
        intro a ha
        fin_cases ha <;> rfl

/-- Behaviour of the pass-verdict completion path: the current task is
completed and saved; then either the next pending task is assigned
(state WAITING_QA_RED, a `task_assignment` written to qa, that task
put in_progress) or, when none remains, `all_done` is broadcast to all
three agents and the state is IDLE. -/
theorem refactorPassComplete_spec (cfg : Config) (git : GitEnv) (st1 : OrchState)
    (i : Nat) (task : Task) (mergeActs : List Action)
    (hget : st1.tasks[i]? = some task) :
    (((refactorPassComplete cfg git st1 i task mergeActs).1.tasks.getD i default).status
        = "completed")
    ∧ Action.saveTasks ∈ (refactorPassComplete cfg git st1 i task mergeActs).2
    ∧ (∀ j nt, get_current_task (st1.tasks.set i { task with status := "completed" })
          = some (j, nt) →
        (refactorPassComplete cfg git st1 i task mergeActs).1.rgr_state
            = RGRState.WAITING_QA_RED
        ∧ Action.writeMailbox "qa" "task_assignment"
            ∈ (refactorPassComplete cfg git st1 i task mergeActs).2
        ∧ (((refactorPassComplete cfg git st1 i task mergeActs).1.tasks.getD j
              default).status = "in_progress"))
    ∧ (get_current_task (st1.tasks.set i { task with status := "completed" }) = none →
        (refactorPassComplete cfg git st1 i task mergeActs).1.rgr_state = RGRState.IDLE
        ∧ Action.writeMailbox "qa" "all_done"
            ∈ (refactorPassComplete cfg git st1 i task mergeActs).2
        ∧ Action.writeMailbox "dev" "all_done"
            ∈ (refactorPassComplete cfg git st1 i task mergeActs).2
        ∧ Action.writeMailbox "refactor" "all_done"
            ∈ (refactorPassComplete cfg git st1 i task mergeActs).2) := by
  have hlen : i < st1.tasks.length := (List.getElem?_eq_some.mp hget).1
  unfold refactorPassComplete
  cases hnext : get_current_task (st1.tasks.set i { task with status := "completed" }) with
  | none =>
    simp only [hnext]
    refine ⟨?_, ?_, ?_, ?_⟩
    · rw [getD_set_self hlen]
    · simp
    · intro j nt hsome
      cases hsome
    · intro _
      refine ⟨trivial, ?_, ?_, ?_⟩ <;> simp
  | some p =>
    obtain ⟨j2, nt⟩ := p
    have hlen2 := get_current_task_lt_length hnext
    have hnt := get_current_task_getElem hnext
    have hactive := get_current_task_active hnext
    have hne : j2 ≠ i := by
      intro hji
      subst hji
      rw [List.getElem?_set_eq_of_lt _ hlen] at hnt
      cases hnt
      rcases hactive with ha | ha <;> simp at ha
    simp only [hnext, assign_task_to_qa]
    refine ⟨?_, ?_, ?_, ?_⟩
    · rw [getD_set_ne hne, getD_set_self hlen]
    · simp
    · intro j nt' hsome
      injection hsome with hsome
      cases hsome
      refine ⟨trivial, by simp, ?_⟩
      rw [getD_set_self hlen2]
    · intro hnone
      cases hnone

/-- **C8.** On a refactor `"pass"` verdict: if the merge of the blue
branch into the default branch does not succeed, the task's status is
untouched and nothing is persisted (the whole trace is git commands;
in particular the task is never marked completed before the merge
succeeds).  If the merge succeeds, the task is marked completed and
saved, and then either the next pending task is assigned — ending in
WAITING_QA_RED with a `task_assignment` in the qa mailbox and that
task in_progress — or, with no pending task left, an `all_done`
broadcast is written to every agent's mailbox and the state is
IDLE. -/
theorem c8_pass_merge_success_completes_and_advances (cfg : Config) (git : GitEnv)
    (llmD : List (String × PyVal)) (st : OrchState) (i : Nat) (t : Task) (tid : String)
    (h : get_current_task st.tasks = some (i, t))
    (hcid : st.current_task_id = some tid)
    (hrepo : (cfg.repo_dir != "") = true) :
    ((git_merge_into_default cfg git cfg.repo_dir ("blue/" ++ tid)).1.1 = false →
       (((handle_refactor_message cfg git llmD st "pass").1.tasks.getD i default).status
           = t.status)
       ∧ ∀ a ∈ (handle_refactor_message cfg git llmD st "pass").2, a.isSaveTasks = false)
    ∧ ((git_merge_into_default cfg git cfg.repo_dir ("blue/" ++ tid)).1.1 = true →
       (((handle_refactor_message cfg git llmD st "pass").1.tasks.getD i default).status
           = "completed")
       ∧ Action.saveTasks ∈ (handle_refactor_message cfg git llmD st "pass").2
       ∧ (∀ j nt, get_current_task
            ((st.tasks.set i { t with attempts := t.attempts + 1 }).set i
              { t with attempts := t.attempts + 1, status := "completed" }) = some (j, nt) →
            (handle_refactor_message cfg git llmD st "pass").1.rgr_state
                = RGRState.WAITING_QA_RED
            ∧ Action.writeMailbox "qa" "task_assignment"
                ∈ (handle_refactor_message cfg git llmD st "pass").2
            ∧ (((handle_refactor_message cfg git llmD st "pass").1.tasks.getD j
                  default).status = "in_progress"))
       ∧ (get_current_task
            ((st.tasks.set i { t with attempts := t.attempts + 1 }).set i
              { t with attempts := t.attempts + 1, status := "completed" }) = none →
            (handle_refactor_message cfg git llmD st "pass").1.rgr_state = RGRState.IDLE
            ∧ Action.writeMailbox "qa" "all_done"
                ∈ (handle_refactor_message cfg git llmD st "pass").2
            ∧ Action.writeMailbox "dev" "all_done"
                ∈ (handle_refactor_message cfg git llmD st "pass").2
            ∧ Action.writeMailbox "refactor" "all_done"
                ∈ (handle_refactor_message cfg git llmD st "pass").2)) := by
  have hlen := get_current_task_lt_length h
  have hget1 : (st.tasks.set i { t with attempts := t.attempts + 1 })[i]?
      = some { t with attempts := t.attempts + 1 } := List.getElem?_set_eq_of_lt _ hlen
  have hgitonly := gmid_gitOnly cfg git cfg.repo_dir ("blue/" ++ tid)
  unfold handle_refactor_message
  simp only [h, hcid, Option.getD_some,
    show (("pass" : String) == "pass") = true from rfl, if_true]
  rw [if_pos hrepo]
  rcases hgm : git_merge_into_default cfg git cfg.repo_dir ("blue/" ++ tid)
    with ⟨⟨succ, out⟩, mActs⟩
  rw [hgm] at hgitonly
  cases succ with
  | false =>
    refine ⟨?_, ?_⟩
    · intro _
      constructor
      · show ((st.tasks.set i { t with attempts := t.attempts + 1 }).getD i
            default).status = t.status
        rw [getD_set_self hlen]
      · show ∀ a ∈ mActs, _
        intro a ha
        exact isSaveTasks_false_of_isGitCmd (hgitonly a ha)
    · intro hfalse
      simp at hfalse
  | true =>
    have hspec := refactorPassComplete_spec cfg git
      { tasks := st.tasks.set i { t with attempts := t.attempts + 1 }
        rgr_state := st.rgr_state
        current_task_id := some tid }
      i { t with attempts := t.attempts + 1 } mActs hget1
    refine ⟨?_, ?_⟩
    · intro hfalse
      simp at hfalse
    · intro _
      simp only [Bool.not_true, Bool.false_eq_true, if_false]
      exact hspec

/-- A git environment where every command succeeds (and `rev-parse
--verify` reports no stale branch); the workspace is clean. -/
def gitC8 : GitEnv := fun _ args =>
  match args with
  | ["rev-parse", "--verify", _] => (false, "")
  | _ => (true, "")

def stC8 : OrchState :=
  { tasks := [mkTask "t1" "in_progress" 0, mkTask "t2" "pending" 0]
    rgr_state := RGRState.WAITING_REFACTOR_BLUE
    current_task_id := some "t1" }

/-- Witness for C8 at a concrete state with a successful merge and a
pending successor task. -/
theorem c8_witness :
    (get_current_task stC8.tasks = some (0, mkTask "t1" "in_progress" 0)
     ∧ stC8.current_task_id = some "t1"
     ∧ (cfgRepo.repo_dir != "") = true)
    ∧ (((git_merge_into_default cfgRepo gitC8 cfgRepo.repo_dir ("blue/" ++ "t1")).1.1
          = false →
        (((handle_refactor_message cfgRepo gitC8 [] stC8 "pass").1.tasks.getD 0
            default).status = (mkTask "t1" "in_progress" 0).status)
        ∧ ∀ a ∈ (handle_refactor_message cfgRepo gitC8 [] stC8 "pass").2,
            a.isSaveTasks = false)
    ∧ ((git_merge_into_default cfgRepo gitC8 cfgRepo.repo_dir ("blue/" ++ "t1")).1.1
          = true →
        (((handle_refactor_message cfgRepo gitC8 [] stC8 "pass").1.tasks.getD 0
            default).status = "completed")
        ∧ Action.saveTasks ∈ (handle_refactor_message cfgRepo gitC8 [] stC8 "pass").2
        ∧ (∀ j nt, get_current_task
             ((stC8.tasks.set 0 { mkTask "t1" "in_progress" 0 with
                 attempts := (mkTask "t1" "in_progress" 0).attempts + 1 }).set 0
               { mkTask "t1" "in_progress" 0 with
                 attempts := (mkTask "t1" "in_progress" 0).attempts + 1,
                 status := "completed" }) = some (j, nt) →
             (handle_refactor_message cfgRepo gitC8 [] stC8 "pass").1.rgr_state
                 = RGRState.WAITING_QA_RED
             ∧ Action.writeMailbox "qa" "task_assignment"
                 ∈ (handle_refactor_message cfgRepo gitC8 [] stC8 "pass").2
             ∧ (((handle_refactor_message cfgRepo gitC8 [] stC8 "pass").1.tasks.getD j
                   default).status = "in_progress"))
        ∧ (get_current_task
             ((stC8.tasks.set 0 { mkTask "t1" "in_progress" 0 with
                 attempts := (mkTask "t1" "in_progress" 0).attempts + 1 }).set 0
               { mkTask "t1" "in_progress" 0 with
                 attempts := (mkTask "t1" "in_progress" 0).attempts + 1,
                 status := "completed" }) = none →
             (handle_refactor_message cfgRepo gitC8 [] stC8 "pass").1.rgr_state
                 = RGRState.IDLE
             ∧ Action.writeMailbox "qa" "all_done"
                 ∈ (handle_refactor_message cfgRepo gitC8 [] stC8 "pass").2
             ∧ Action.writeMailbox "dev" "all_done"
                 ∈ (handle_refactor_message cfgRepo gitC8 [] stC8 "pass").2
             ∧ Action.writeMailbox "refactor" "all_done"
                 ∈ (handle_refactor_message cfgRepo gitC8 [] stC8 "pass").2))) :=
  ⟨⟨by decide, by decide, by decide⟩,
   c8_pass_merge_success_completes_and_advances cfgRepo gitC8 [] stC8 0
     (mkTask "t1" "in_progress" 0) "t1" (by decide) (by decide) (by decide)⟩

def stC9 : OrchState :=
  { tasks := [mkTask "t1" "stuck" 3, mkTask "t2" "pending" 0]
    rgr_state := RGRState.IDLE
    current_task_id := some "t1" }

/-- Witness for C9: assigning task `t2` while `t1` was the previously
bound task — the exact situation where the claim expects a
context-reset — and the recorded `saveTasks` trace entry (like every
other entry of that call's trace) is not a `/clear` signal. -/
theorem c9_witness :
    Action.saveTasks ∈ (assign_task_to_qa cfgRepo gitC8 stC9 1 (mkTask "t2" "pending" 0)).2
    ∧ (Action.saveTasks).isTmuxClear = false :=
  ⟨by decide,
   c9_assign_never_emits_context_reset cfgRepo gitC8 stC9 1 (mkTask "t2" "pending" 0)
     Action.saveTasks (by decide)⟩

end Orch
